import Mathlib

/-!
A shallow embedding of the In_Memory_Trading_System matching engine
(`src/include/*.h`, `src/src/*.cpp`) and proofs about its claims.

Modelling conventions:
* `Quantity = int` is modelled as `Int` (all values involved stay far from
  the 32-bit overflow boundary), `Price = double` as `ℚ` with the literal
  `1e-9` read as `1/10^9` (every concrete price used in a theorem below is
  chosen so that the `double` computations of the source are exact and agree
  with the rational ones), `Timestamp` as `Nat` (only `<` is used),
  identifier strings as `String`.
* The C++ code mutates `Order` objects shared (via `shared_ptr`) between a
  book's side `multiset`s and its `orderLookup_` map.  The embedding keeps
  the side queues as sorted `List Order` and the lookup map as an
  association list; every mutation of a queued order performed by the source
  (only `fill` inside `matchOrders`) is applied to both copies, and a
  mutation after removal from the queue (`setStatus(CANCELLED)` in
  `cancelOrder`) is applied to the lookup copy, exactly mirroring which
  aliases of the shared object survive in the source.
* `std::multiset::insert` places a new element after all elements it is not
  strictly less than (upper bound of its equivalence class); `insertSorted`
  below does the same on the sorted list.
* The matching `while` loop of `OrderBook::matchOrders` is embedded with a
  fuel parameter; `buyOrders.length + sellOrders.length` steps always
  suffice because every iteration erases at least one order (the side whose
  remaining quantity attained the minimum), which is proved below
  (`matchLoop_congr` and the C1 theorem are the faithfulness statements).
* `generateUUID` (an external id provider) is modelled by threading a `Nat`
  counter for trade ids and by passing fresh order ids explicitly;
  `getCurrentTimestamp` (the external clock) by explicit `now` parameters.
-/

unseal Rat.add Rat.mul Rat.inv Rat.sub

namespace TradingSystem

inductive OrderType where
  | buy
  | sell
deriving DecidableEq, Repr

/-- The dynamic type of an order object: `LimitOrder` or `MarketOrder`
(the two concrete subclasses of `Order` in `Order.h`). -/
inductive OrderKind where
  | limitOrder
  | marketOrder
deriving DecidableEq, Repr

inductive OrderStatus where
  | pending
  | accepted
  | partiallyFilled
  | filled
  | cancelled
  | rejected
deriving DecidableEq, Repr

inductive OrderTimeInForce where
  | gtc
  | ioc
  | fok
deriving DecidableEq, Repr

def MAX_ORDER_QUANTITY : Int := 1000000

def MIN_ORDER_PRICE : ℚ := 1 / 100

def MAX_ORDER_PRICE : ℚ := 1000000

/-- The `1e-9` price tolerance used by the comparators in `Order.cpp`. -/
def priceEpsilon : ℚ := 1 / 1000000000

/-- `Order` (fields of the C++ base class plus the dynamic type tag). -/
structure Order where
  orderId : String
  userId : String
  orderType : OrderType
  kind : OrderKind
  symbol : String
  quantity : Int
  price : ℚ
  timestamp : Nat
  status : OrderStatus
  timeInForce : OrderTimeInForce
  filledQuantity : Int
deriving DecidableEq, Repr

/-- `Order::getRemainingQuantity`. -/
def Order.getRemainingQuantity (o : Order) : Int :=
  o.quantity - o.filledQuantity

/-- `Order::canModify`. -/
def Order.canModify (o : Order) : Bool :=
  o.status == OrderStatus.pending || o.status == OrderStatus.accepted

/-- `Order::canCancel`. -/
def Order.canCancel (o : Order) : Bool :=
  o.status == OrderStatus.pending || o.status == OrderStatus.accepted ||
    o.status == OrderStatus.partiallyFilled

/-- `Order::setQuantity`: returns the C++ `bool` and the (possibly
unchanged) object. -/
def Order.setQuantity (o : Order) (newQuantity : Int) : Bool × Order :=
  if newQuantity ≤ 0 ∨ newQuantity > MAX_ORDER_QUANTITY then (false, o)
  else if o.canModify then (true, { o with quantity := newQuantity })
  else (false, o)

/-- `Order::setPrice`, with the `MarketOrder::setPrice` override (market
orders always refuse). -/
def Order.setPrice (o : Order) (newPrice : ℚ) : Bool × Order :=
  match o.kind with
  | OrderKind.marketOrder => (false, o)
  | OrderKind.limitOrder =>
    if newPrice < MIN_ORDER_PRICE ∨ newPrice > MAX_ORDER_PRICE then (false, o)
    else if o.canModify then (true, { o with price := newPrice })
    else (false, o)

/-- `Order::setStatus`: unconditional assignment, always returns `true`. -/
def Order.setStatus (o : Order) (newStatus : OrderStatus) : Bool × Order :=
  (true, { o with status := newStatus })

/-- `Order::fill`. -/
def Order.fill (o : Order) (fillQuantity : Int) : Order :=
  if fillQuantity ≤ o.getRemainingQuantity then
    { o with
      filledQuantity := o.filledQuantity + fillQuantity,
      status :=
        if o.filledQuantity + fillQuantity = o.quantity then OrderStatus.filled
        else if o.filledQuantity + fillQuantity > 0 then OrderStatus.partiallyFilled
        else o.status }
  else o

/-- `Order::isValid`, with the `MarketOrder::isValid` override. -/
def Order.isValid (o : Order) : Bool :=
  match o.kind with
  | OrderKind.limitOrder =>
    decide (o.orderId ≠ "" ∧ o.userId ≠ "" ∧ o.symbol ≠ "" ∧
      0 < o.quantity ∧ o.quantity ≤ MAX_ORDER_QUANTITY ∧
      MIN_ORDER_PRICE ≤ o.price ∧ o.price ≤ MAX_ORDER_PRICE)
  | OrderKind.marketOrder =>
    decide (o.orderId ≠ "" ∧ o.userId ≠ "" ∧ o.symbol ≠ "" ∧
      0 < o.quantity ∧ o.quantity ≤ MAX_ORDER_QUANTITY ∧ 0 ≤ o.price)

/-- The `LimitOrder` constructor (status `PENDING`, `filledQuantity 0`,
`GTC`, timestamp from the clock). -/
def mkLimitOrder (orderId userId : String) (orderType : OrderType)
    (symbol : String) (quantity : Int) (price : ℚ) (now : Nat) : Order :=
  { orderId := orderId, userId := userId, orderType := orderType,
    kind := OrderKind.limitOrder, symbol := symbol, quantity := quantity,
    price := price, timestamp := now, status := OrderStatus.pending,
    timeInForce := OrderTimeInForce.gtc, filledQuantity := 0 }

/-- The `MarketOrder` constructor (price stored as `0`). -/
def mkMarketOrder (orderId userId : String) (orderType : OrderType)
    (symbol : String) (quantity : Int) (now : Nat) : Order :=
  { orderId := orderId, userId := userId, orderType := orderType,
    kind := OrderKind.marketOrder, symbol := symbol, quantity := quantity,
    price := 0, timestamp := now, status := OrderStatus.pending,
    timeInForce := OrderTimeInForce.gtc, filledQuantity := 0 }

/-- `std::abs` on the price type. -/
def ratAbs (x : ℚ) : ℚ := if x < 0 then -x else x

/-- `BuyOrderComparator::operator()` from `Order.cpp`. -/
def BuyOrderComparator (lhs rhs : Order) : Bool :=
  if ratAbs (lhs.price - rhs.price) > priceEpsilon then decide (lhs.price > rhs.price)
  else decide (lhs.timestamp < rhs.timestamp)

/-- `SellOrderComparator::operator()` from `Order.cpp`. -/
def SellOrderComparator (lhs rhs : Order) : Bool :=
  if ratAbs (lhs.price - rhs.price) > priceEpsilon then decide (lhs.price < rhs.price)
  else decide (lhs.timestamp < rhs.timestamp)

/-- `Trade` (the trade id is the threaded counter standing in for
`generateUUID`). -/
structure Trade where
  tradeId : Nat
  tradeType : OrderType
  buyerOrderId : String
  sellerOrderId : String
  symbol : String
  quantity : Int
  price : ℚ
  timestamp : Nat
deriving DecidableEq, Repr

/-- Insertion into a queue sorted by `lt`, at the upper bound of the new
element's equivalence class (the position `std::multiset::insert` uses):
the new element goes in front of the first element it is strictly less
than. -/
def insertSorted (lt : Order → Order → Bool) (x : Order) : List Order → List Order
  | [] => [x]
  | y :: ys => if lt x y then x :: y :: ys else y :: insertSorted lt x ys

/-- The erase-first-matching-id loop used by `OrderBook::cancelOrder` and
`OrderBook::modifyOrder`; returns the C++ `removed` flag and the queue. -/
def eraseFirstById (orderId : String) : List Order → Bool × List Order
  | [] => (false, [])
  | y :: ys =>
    if y.orderId == orderId then (true, ys)
    else
      let (removed, ys') := eraseFirstById orderId ys
      (removed, y :: ys')

/-- Lookup in the association list modelling `orderLookup_`. -/
def lookupFind (l : List (String × Order)) (orderId : String) : Option Order :=
  (l.find? (fun p => p.1 == orderId)).map (·.2)

/-- `orderLookup_[orderId] = order` (insert-or-assign). -/
def lookupSet (l : List (String × Order)) (orderId : String) (o : Order) :
    List (String × Order) :=
  if l.any (fun p => p.1 == orderId) then
    l.map (fun p => if p.1 == orderId then (orderId, o) else p)
  else l ++ [(orderId, o)]

/-- The key set of the lookup map. -/
def lookupKeys (l : List (String × Order)) : List String := l.map (·.1)

/-- `OrderBook`: the two sorted side queues and the by-id map. -/
structure OrderBook where
  symbol : String
  buyOrders : List Order
  sellOrders : List Order
  orderLookup : List (String × Order)
deriving DecidableEq, Repr

/-- The `OrderBook(symbol)` constructor. -/
def OrderBook.init (symbol : String) : OrderBook :=
  { symbol := symbol, buyOrders := [], sellOrders := [], orderLookup := [] }

/-- `OrderBook::addOrder`.  `none` models `return false` (the C++ book is
left unchanged on every failing path). -/
def OrderBook.addOrder (b : OrderBook) (order : Order) : Option OrderBook :=
  if order.symbol ≠ b.symbol ∨ order.isValid = false then none
  else if (lookupFind b.orderLookup order.orderId).isSome then none
  else
    let o := (order.setStatus OrderStatus.accepted).2
    if o.orderType = OrderType.buy then
      some { b with
        buyOrders := insertSorted BuyOrderComparator o b.buyOrders,
        orderLookup := lookupSet b.orderLookup o.orderId o }
    else
      some { b with
        sellOrders := insertSorted SellOrderComparator o b.sellOrders,
        orderLookup := lookupSet b.orderLookup o.orderId o }

/-- `OrderBook::cancelOrder`.  Mirrors the source: the order is erased from
its side queue and its status set to `CANCELLED` through the shared handle,
which in the embedding is the lookup-map copy — the source never erases the
`orderLookup_` entry. -/
def OrderBook.cancelOrder (b : OrderBook) (orderId : String) : Option OrderBook :=
  match lookupFind b.orderLookup orderId with
  | none => none
  | some order =>
    if order.canCancel then
      if order.orderType = OrderType.buy then
        match eraseFirstById orderId b.buyOrders with
        | (true, buys') =>
          some { b with
            buyOrders := buys',
            orderLookup := lookupSet b.orderLookup orderId
              (order.setStatus OrderStatus.cancelled).2 }
        | (false, _) => none
      else
        match eraseFirstById orderId b.sellOrders with
        | (true, sells') =>
          some { b with
            sellOrders := sells',
            orderLookup := lookupSet b.orderLookup orderId
              (order.setStatus OrderStatus.cancelled).2 }
        | (false, _) => none
    else none

/-- `OrderBook::modifyOrder`: clone, apply `setQuantity` then `setPrice`,
re-verify existence and `canModify`, erase the old order from its side
queue, insert the modified clone, and overwrite the lookup entry.  In this
sequential embedding the re-verification re-reads the same map. -/
def OrderBook.modifyOrder (b : OrderBook) (orderId : String)
    (newQuantity : Int) (newPrice : ℚ) : Option OrderBook :=
  match lookupFind b.orderLookup orderId with
  | none => none
  | some existingOrder =>
    if existingOrder.canModify then
      let (ok1, m1) := existingOrder.setQuantity newQuantity
      if ok1 then
        let (ok2, m2) := m1.setPrice newPrice
        if ok2 then
          match lookupFind b.orderLookup orderId with
          | none => none
          | some order2 =>
            if order2.canModify then
              let (removed, buys', sells') :=
                if order2.orderType = OrderType.buy then
                  let (r, q) := eraseFirstById orderId b.buyOrders
                  (r, q, b.sellOrders)
                else
                  let (r, q) := eraseFirstById orderId b.sellOrders
                  (r, b.buyOrders, q)
              if removed then
                let m3 := (m2.setStatus OrderStatus.accepted).2
                some { b with
                  buyOrders :=
                    if m3.orderType = OrderType.buy then
                      insertSorted BuyOrderComparator m3 buys'
                    else buys',
                  sellOrders :=
                    if m3.orderType = OrderType.buy then sells'
                    else insertSorted SellOrderComparator m3 sells',
                  orderLookup := lookupSet b.orderLookup orderId m3 }
              else none
            else none
        else none
      else none
    else none

/-- `OrderBook::getOrder`. -/
def OrderBook.getOrder (b : OrderBook) (orderId : String) : Option Order :=
  lookupFind b.orderLookup orderId

/-- `OrderBook::getBestBid` (price of the queue head, `0` when empty). -/
def OrderBook.getBestBid (b : OrderBook) : ℚ :=
  match b.buyOrders with
  | [] => 0
  | o :: _ => o.price

/-- `OrderBook::getBestAsk`. -/
def OrderBook.getBestAsk (b : OrderBook) : ℚ :=
  match b.sellOrders with
  | [] => 0
  | o :: _ => o.price

/-- `OrderBook::getSpread`. -/
def OrderBook.getSpread (b : OrderBook) : ℚ :=
  b.getBestAsk - b.getBestBid

/-- One-loop-at-a-time embedding of the `while` loop of
`OrderBook::matchOrders`, with explicit fuel.  `nextTradeId` threads the
trade-id provider, `now` the clock.  Each iteration: stop unless both
queues are non-empty; stop when `bestBuy.price < bestSell.price`; otherwise
trade `min` of the remaining quantities at `bestSell`'s price, `fill` both
heads (through both aliases of each shared order object), and erase a head
exactly when its remaining quantity reached `0`. -/
def OrderBook.matchLoop : Nat → Nat → Nat → OrderBook → List Trade × OrderBook
  | 0, _, _, b => ([], b)
  | fuel + 1, nextTradeId, now, b =>
    match b.buyOrders, b.sellOrders with
    | [], _ => ([], b)
    | _ :: _, [] => ([], b)
    | bestBuy :: restBuys, bestSell :: restSells =>
      if bestBuy.price < bestSell.price then ([], b)
      else
        let tradeQuantity :=
          min bestBuy.getRemainingQuantity bestSell.getRemainingQuantity
        let trade : Trade :=
          { tradeId := nextTradeId, tradeType := OrderType.buy,
            buyerOrderId := bestBuy.orderId, sellerOrderId := bestSell.orderId,
            symbol := b.symbol, quantity := tradeQuantity,
            price := bestSell.price, timestamp := now }
        let filledBuy := bestBuy.fill tradeQuantity
        let filledSell := bestSell.fill tradeQuantity
        let b' : OrderBook :=
          { b with
            buyOrders :=
              if filledBuy.getRemainingQuantity = 0 then restBuys
              else filledBuy :: restBuys,
            sellOrders :=
              if filledSell.getRemainingQuantity = 0 then restSells
              else filledSell :: restSells,
            orderLookup :=
              lookupSet (lookupSet b.orderLookup bestBuy.orderId filledBuy)
                bestSell.orderId filledSell }
        let (trades, bfinal) := OrderBook.matchLoop fuel (nextTradeId + 1) now b'
        (trade :: trades, bfinal)

/-- `OrderBook::matchOrders`: the loop runs to completion;
`buyOrders.length + sellOrders.length` iterations always suffice (every
iteration erases at least one order; see `matchLoop_congr`). -/
def OrderBook.matchOrders (b : OrderBook) (nextTradeId now : Nat) :
    List Trade × OrderBook :=
  OrderBook.matchLoop (b.buyOrders.length + b.sellOrders.length) nextTradeId now b

/-- `User` (identity fields only; used by the engine's existence check). -/
structure User where
  userId : String
  userName : String
  phoneNumber : String
  emailId : String
deriving DecidableEq, Repr

/-- `User::isValid`. -/
def User.isValid (u : User) : Bool :=
  decide (u.userId ≠ "" ∧ u.userName ≠ "" ∧ u.phoneNumber ≠ "" ∧ u.emailId ≠ "")

/-- The two `TradeObserver` callbacks, recorded as published events.  The
payloads are the values the shared handles exhibit at publication time. -/
inductive EngineEvent where
  | orderStatusChanged (order : Order)
  | tradeExecuted (trade : Trade)
deriving DecidableEq, Repr

/-- Lookup in the association list modelling `orderBooks_`. -/
def booksFind (l : List (String × OrderBook)) (symbol : String) : Option OrderBook :=
  (l.find? (fun p => p.1 == symbol)).map (·.2)

/-- Store-back of a (mutated) book under its symbol. -/
def booksSet (l : List (String × OrderBook)) (symbol : String) (bk : OrderBook) :
    List (String × OrderBook) :=
  if l.any (fun p => p.1 == symbol) then
    l.map (fun p => if p.1 == symbol then (symbol, bk) else p)
  else l ++ [(symbol, bk)]

/-- `TradingEngine` state.  `allOrders_` shares the order objects with the
books in the source; only the immutable fields (`userId`, `symbol`) of its
entries are ever read by the engine, so the embedding stores snapshots and
refreshes them exactly where the source rebinds the map entry. -/
structure TradingEngine where
  orderBooks : List (String × OrderBook)
  users : List (String × User)
  allOrders : List (String × Order)
deriving DecidableEq, Repr

/-- A fresh engine (the singleton right after construction). -/
def TradingEngine.init : TradingEngine :=
  { orderBooks := [], users := [], allOrders := [] }

/-- `TradingEngine::getUser` (existence only). -/
def TradingEngine.getUser (e : TradingEngine) (userId : String) : Bool :=
  e.users.any (fun p => p.1 == userId)

/-- `TradingEngine::registerUser`. -/
def TradingEngine.registerUser (e : TradingEngine) (user : User) :
    Bool × TradingEngine :=
  if user.isValid then
    if e.users.any (fun p => p.1 == user.userId) then (false, e)
    else (true, { e with users := e.users ++ [(user.userId, user)] })
  else (false, e)

/-- `TradingEngine::getOrCreateOrderBook`. -/
def TradingEngine.getOrCreateOrderBook (e : TradingEngine) (symbol : String) :
    OrderBook × TradingEngine :=
  match booksFind e.orderBooks symbol with
  | some bk => (bk, e)
  | none =>
    let bk := OrderBook.init symbol
    (bk, { e with orderBooks := e.orderBooks ++ [(symbol, bk)] })

/-- `TradingEngine::placeOrder`.  `newOrderId` stands for the fresh
`generateUUID()`, `now` for the clock, `nextTradeId` seeds the trade-id
provider of the matching loop.  Returns the order handle (or `none`), the
new engine state, and the events published to the observers, in order.
Mirrors the source: `allOrders_` is written before `addOrder`, and neither
it nor a freshly created book is rolled back when `addOrder` fails; on
success one status event for the accepted order is published, then
`matchOrders` runs and one trade event is published per trade. -/
def TradingEngine.placeOrder (e : TradingEngine) (userId : String)
    (orderType : OrderType) (symbol : String) (quantity : Int) (price : ℚ)
    (newOrderId : String) (now : Nat) (nextTradeId : Nat) :
    Option Order × TradingEngine × List EngineEvent :=
  if e.getUser userId then
    if price < 0 then (none, e, [])
    else
      let order :=
        if price > 0 then
          mkLimitOrder newOrderId userId orderType symbol quantity price now
        else mkMarketOrder newOrderId userId orderType symbol quantity now
      if order.isValid then
        let (orderBook, e1) := e.getOrCreateOrderBook symbol
        let e2 := { e1 with allOrders := lookupSet e1.allOrders order.orderId order }
        match orderBook.addOrder order with
        | some book1 =>
          let sharedOrder := (order.setStatus OrderStatus.accepted).2
          let (trades, book2) := book1.matchOrders nextTradeId now
          let e3 := { e2 with orderBooks := booksSet e2.orderBooks symbol book2 }
          (some sharedOrder, e3,
            EngineEvent.orderStatusChanged sharedOrder ::
              trades.map EngineEvent.tradeExecuted)
        | none => (none, e2, [])
      else (none, e, [])
  else (none, e, [])

/-- The book-scanning loop of `TradingEngine::cancelOrder`: the first book
that knows the id gets the cancel; when its `cancelOrder` fails the scan
continues. -/
def cancelOrderInBooks (orderId : String) :
    List (String × OrderBook) → Bool × List (String × OrderBook)
  | [] => (false, [])
  | (sym, bk) :: rest =>
    if (bk.getOrder orderId).isSome then
      match bk.cancelOrder orderId with
      | some bk' => (true, (sym, bk') :: rest)
      | none =>
        let (ok, rest') := cancelOrderInBooks orderId rest
        (ok, (sym, bk) :: rest')
    else
      let (ok, rest') := cancelOrderInBooks orderId rest
      (ok, (sym, bk) :: rest')

/-- `TradingEngine::cancelOrder`.  On success the status event carries the
shared order handle, whose status the book just set to `CANCELLED`. -/
def TradingEngine.cancelOrder (e : TradingEngine) (userId orderId : String) :
    Bool × TradingEngine × List EngineEvent :=
  if e.getUser userId then
    match lookupFind e.allOrders orderId with
    | none => (false, e, [])
    | some order =>
      if order.userId = userId then
        let (ok, books') := cancelOrderInBooks orderId e.orderBooks
        if ok then
          (true, { e with orderBooks := books' },
            [EngineEvent.orderStatusChanged (order.setStatus OrderStatus.cancelled).2])
        else (false, { e with orderBooks := books' }, [])
      else (false, e, [])
  else (false, e, [])

/-- `TradingEngine::modifyOrder`: ownership check, negative-price check,
delegate to the book, refresh `allOrders_`, publish the status event, then
re-run `matchOrders` and publish its trades. -/
def TradingEngine.modifyOrder (e : TradingEngine) (userId orderId : String)
    (newQuantity : Int) (newPrice : ℚ) (nextTradeId now : Nat) :
    Bool × TradingEngine × List EngineEvent :=
  if e.getUser userId then
    if newPrice < 0 then (false, e, [])
    else
      match lookupFind e.allOrders orderId with
      | none => (false, e, [])
      | some order =>
        if order.userId = userId then
          match booksFind e.orderBooks order.symbol with
          | none => (false, e, [])
          | some orderBook =>
            match orderBook.modifyOrder orderId newQuantity newPrice with
            | some book1 =>
              match book1.getOrder orderId with
              | some modifiedOrder =>
                let (trades, book2) := book1.matchOrders nextTradeId now
                (true,
                  { e with
                    orderBooks := booksSet e.orderBooks order.symbol book2,
                    allOrders := lookupSet e.allOrders orderId modifiedOrder },
                  EngineEvent.orderStatusChanged modifiedOrder ::
                    trades.map EngineEvent.tradeExecuted)
              | none =>
                (true,
                  { e with orderBooks := booksSet e.orderBooks order.symbol book1 },
                  [])
            | none => (false, e, [])
        else (false, e, [])
  else (false, e, [])

/-- `TradingEngine::getOrderStatus`. -/
def TradingEngine.getOrderStatus (e : TradingEngine) (userId orderId : String) :
    Option Order :=
  if e.getUser userId then
    match lookupFind e.allOrders orderId with
    | some order => if order.userId = userId then some order else none
    | none => none
  else none

/-- Following the spec's words for `modify` (claim C6), amended to what the
source does with the arrival time: atomically remove the existing order and
re-insert a clone with the updated quantity and price, the same `orderId`
and the *original* `arrivalTime`, status `ACCEPTED`; fail (book unchanged)
when the order is absent from the map or its side queue, cannot be
modified, or the new values are rejected (a `MarketOrder` rejects every new
price). -/
def removeThenReinsertSpec (b : OrderBook) (orderId : String)
    (newQuantity : Int) (newPrice : ℚ) : Option OrderBook :=
  match b.getOrder orderId with
  | none => none
  | some old =>
    if old.canModify = true ∧ ¬(newQuantity ≤ 0 ∨ newQuantity > MAX_ORDER_QUANTITY) ∧
        old.kind = OrderKind.limitOrder ∧
        ¬(newPrice < MIN_ORDER_PRICE ∨ newPrice > MAX_ORDER_PRICE) then
      let clone : Order :=
        { old with quantity := newQuantity, price := newPrice,
                   status := OrderStatus.accepted }
      if old.orderType = OrderType.buy then
        match eraseFirstById orderId b.buyOrders with
        | (true, buys') =>
          some { b with
            buyOrders := insertSorted BuyOrderComparator clone buys',
            orderLookup := lookupSet b.orderLookup orderId clone }
        | (false, _) => none
      else
        match eraseFirstById orderId b.sellOrders with
        | (true, sells') =>
          some { b with
            sellOrders := insertSorted SellOrderComparator clone sells',
            orderLookup := lookupSet b.orderLookup orderId clone }
        | (false, _) => none
    else none

/-- The book invariant of claim C5 (amended): every queued order is live
(ACCEPTED or PARTIALLY_FILLED) and has an entry in the by-id map, and every
map entry is stored under its order's id. -/
def BookInv (b : OrderBook) : Prop :=
  (∀ o : Order, o ∈ b.buyOrders ∨ o ∈ b.sellOrders →
    (o.status = OrderStatus.accepted ∨ o.status = OrderStatus.partiallyFilled) ∧
    o.orderId ∈ lookupKeys b.orderLookup) ∧
  (∀ p : String × Order, p ∈ b.orderLookup → p.2.orderId = p.1)

/-- Books reachable from a fresh book by the `OrderBook` operations. -/
inductive ReachableBook : OrderBook → Prop where
  | init (symbol : String) : ReachableBook (OrderBook.init symbol)
  | add {b b' : OrderBook} {o : Order} :
      ReachableBook b → b.addOrder o = some b' → ReachableBook b'
  | cancel {b b' : OrderBook} {orderId : String} :
      ReachableBook b → b.cancelOrder orderId = some b' → ReachableBook b'
  | modify {b b' : OrderBook} {orderId : String} {q : Int} {p : ℚ} :
      ReachableBook b → b.modifyOrder orderId q p = some b' → ReachableBook b'
  | matched {b : OrderBook} (tid now : Nat) :
      ReachableBook b → ReachableBook (b.matchOrders tid now).2

/-- Event classifier used to state the publication-order results. -/
def isTradeExecutedEvent : EngineEvent → Bool
  | EngineEvent.tradeExecuted _ => true
  | EngineEvent.orderStatusChanged _ => false

/-! ### Concrete fixtures used by counterexamples and witnesses -/

/-- Fallback value for `Option.getD` on fixture pipelines; every fixture
theorem separately asserts that the pipeline really returned `some`. -/
def defaultOrder : Order := mkLimitOrder "x" "x" OrderType.buy "X" 1 1 0

def userU1 : User := ⟨"U1", "name1", "phone1", "email1"⟩

def userU2 : User := ⟨"U2", "name2", "phone2", "email2"⟩

/-- C2: a buy resting at 105 (arrived first)… -/
def bkC2a : OrderBook :=
  ((OrderBook.init "S").addOrder
    (mkLimitOrder "B1" "U1" OrderType.buy "S" 10 105 1)).getD (OrderBook.init "S")

/-- …then a sell at 100 arrives (the aggressor). -/
def bkC2b : OrderBook :=
  (bkC2a.addOrder (mkLimitOrder "S1" "U2" OrderType.sell "S" 10 100 2)).getD bkC2a

/-- C3, scenario A: a limit buy 50@500 rests, then a MARKET sell for 100
arrives. -/
def engC3a : TradingEngine :=
  ((TradingEngine.init.registerUser userU1).2.placeOrder
    "U1" OrderType.buy "W" 50 500 "B1" 1 0).2.1

def placeC3a : Option Order × TradingEngine × List EngineEvent :=
  engC3a.placeOrder "U1" OrderType.sell "W" 100 0 "S1" 2 0

/-- C3, scenario B: a limit sell 50@500 rests, then a MARKET buy for 50
arrives. -/
def engC3b : TradingEngine :=
  ((TradingEngine.init.registerUser userU1).2.placeOrder
    "U1" OrderType.sell "W" 50 500 "A1" 1 0).2.1

def placeC3b : Option Order × TradingEngine × List EngineEvent :=
  engC3b.placeOrder "U1" OrderType.buy "W" 50 0 "B9" 2 0

/-- C4 counterexample: bids at 100 and 100 + 2⁻³¹ (within the 10⁻⁹
tolerance of each other, so time priority puts the cheaper, earlier bid at
the head), an ask at 100 + 2⁻³² between them, then the head bid is
cancelled.  All three prices are exactly representable `double`s and all
comparator/cross-check comparisons the source performs on them are exact,
so the rational model computes the same branches. -/
def engC4 : TradingEngine :=
  (((((TradingEngine.init.registerUser userU1).2.placeOrder
        "U1" OrderType.buy "S" 10 100 "B1" 1 0).2.1.placeOrder
        "U1" OrderType.buy "S" 10 (100 + 1 / 2147483648) "B2" 2 10).2.1.placeOrder
        "U1" OrderType.sell "S" 10 (100 + 1 / 4294967296) "A1" 3 20).2.1.cancelOrder
        "U1" "B1").2.1

def bkC4 : OrderBook :=
  (booksFind engC4.orderBooks "S").getD (OrderBook.init "S")

/-- C4 witness fixture: a resting bid at 90, then a sell at 100 is placed;
both sides are non-empty and uncrossed afterwards. -/
def engW4 : TradingEngine :=
  ((TradingEngine.init.registerUser userU1).2.placeOrder
    "U1" OrderType.buy "S" 5 90 "B1" 1 0).2.1

def placeW4 : Option Order × TradingEngine × List EngineEvent :=
  engW4.placeOrder "U1" OrderType.sell "S" 5 100 "A1" 2 10

def bkW4 : OrderBook :=
  (booksFind placeW4.2.1.orderBooks "S").getD (OrderBook.init "S")

def ordW4 : Order := placeW4.1.getD defaultOrder

/-- C5: a single resting buy… -/
def bkC5 : OrderBook :=
  ((OrderBook.init "S").addOrder
    (mkLimitOrder "B1" "U1" OrderType.buy "S" 7 3200 1)).getD (OrderBook.init "S")

/-- …which gets cancelled. -/
def bkC5c : OrderBook := (bkC5.cancelOrder "B1").getD bkC5

/-- C6: two equal-priced bids, arrival times 1 and 2. -/
def bkC6a : OrderBook :=
  ((OrderBook.init "S").addOrder
    (mkLimitOrder "o1" "U1" OrderType.buy "S" 10 100 1)).getD (OrderBook.init "S")

def bkC6b : OrderBook :=
  (bkC6a.addOrder (mkLimitOrder "o2" "U1" OrderType.buy "S" 10 100 2)).getD bkC6a

/-- The earlier bid gets modified (qty 10 → 5, price kept). -/
def bkC6c : OrderBook := (bkC6b.modifyOrder "o1" 5 100).getD bkC6b

/-- The clone the claim describes: same fields but a *refreshed* arrival
time (3, later than both resting bids). -/
def ordC6refreshed : Order :=
  { orderId := "o1", userId := "U1", orderType := OrderType.buy,
    kind := OrderKind.limitOrder, symbol := "S", quantity := 5, price := 100,
    timestamp := 3, status := OrderStatus.accepted,
    timeInForce := OrderTimeInForce.gtc, filledQuantity := 0 }

/-- C7: a FILLED order. -/
def ordFilledC7 : Order :=
  { orderId := "F1", userId := "U1", orderType := OrderType.buy,
    kind := OrderKind.limitOrder, symbol := "S", quantity := 10, price := 50,
    timestamp := 1, status := OrderStatus.filled,
    timeInForce := OrderTimeInForce.gtc, filledQuantity := 10 }

/-- C7: a CANCELLED order with remaining quantity 8. -/
def ordCancelledC7 : Order :=
  { orderId := "K1", userId := "U1", orderType := OrderType.buy,
    kind := OrderKind.limitOrder, symbol := "S", quantity := 10, price := 50,
    timestamp := 1, status := OrderStatus.cancelled,
    timeInForce := OrderTimeInForce.gtc, filledQuantity := 2 }

/-- C8: buy-side triple — prices 0, 10⁻⁹, 2·10⁻⁹, arrival times 1 < 2 < 3.
The `double` computations of the source on these values are exact. -/
def ordP1 : Order := mkLimitOrder "a" "u" OrderType.buy "S" 1 0 1

def ordP2 : Order := mkLimitOrder "b" "u" OrderType.buy "S" 1 (1 / 1000000000) 2

def ordP3 : Order := mkLimitOrder "c" "u" OrderType.buy "S" 1 (2 / 1000000000) 3

/-- C8: sell-side triple — prices 2·10⁻⁹, 10⁻⁹, 0, arrival times 1 < 2 < 3. -/
def ordQ1 : Order := mkLimitOrder "d" "u" OrderType.sell "S" 1 (2 / 1000000000) 1

def ordQ2 : Order := mkLimitOrder "e" "u" OrderType.sell "S" 1 (1 / 1000000000) 2

def ordQ3 : Order := mkLimitOrder "f" "u" OrderType.sell "S" 1 0 3

/-- C9: a resting bid 10@500, then a crossing sell 10@500 is placed. -/
def engC9 : TradingEngine :=
  ((TradingEngine.init.registerUser userU1).2.placeOrder
    "U1" OrderType.buy "W" 10 500 "B1" 1 0).2.1

def placeC9 : Option Order × TradingEngine × List EngineEvent :=
  engC9.placeOrder "U1" OrderType.sell "W" 10 500 "S1" 2 0

def ordC9 : Order := placeC9.1.getD defaultOrder

/-- C1 witness fixture: one bid 3@10 and one crossing ask 3@10. -/
def bkW1 : OrderBook :=
  ((((OrderBook.init "S").addOrder
      (mkLimitOrder "B1" "U1" OrderType.buy "S" 3 10 1)).getD
        (OrderBook.init "S")).addOrder
      (mkLimitOrder "A1" "U2" OrderType.sell "S" 3 10 2)).getD (OrderBook.init "S")

/-- C10 witness fixture. -/
def ordW10 : Order := mkLimitOrder "B1" "U1" OrderType.buy "S" 10 50 1

/-- The two resting orders of `bkW1` (as accepted by the book). -/
def ordW1buy : Order :=
  ((mkLimitOrder "B1" "U1" OrderType.buy "S" 3 10 1).setStatus OrderStatus.accepted).2

def ordW1sell : Order :=
  ((mkLimitOrder "A1" "U2" OrderType.sell "S" 3 10 2).setStatus OrderStatus.accepted).2

/-- The book after one iteration of the matching loop on `bkW1`. -/
def bkW1step : OrderBook :=
  { bkW1 with
    buyOrders :=
      if (ordW1buy.fill (min ordW1buy.getRemainingQuantity ordW1sell.getRemainingQuantity)).getRemainingQuantity = 0
      then []
      else ordW1buy.fill (min ordW1buy.getRemainingQuantity ordW1sell.getRemainingQuantity) :: [],
    sellOrders :=
      if (ordW1sell.fill (min ordW1buy.getRemainingQuantity ordW1sell.getRemainingQuantity)).getRemainingQuantity = 0
      then []
      else ordW1sell.fill (min ordW1buy.getRemainingQuantity ordW1sell.getRemainingQuantity) :: [],
    orderLookup :=
      lookupSet (lookupSet bkW1.orderLookup ordW1buy.orderId
          (ordW1buy.fill (min ordW1buy.getRemainingQuantity ordW1sell.getRemainingQuantity)))
        ordW1sell.orderId
        (ordW1sell.fill (min ordW1buy.getRemainingQuantity ordW1sell.getRemainingQuantity)) }

/-! ### Helper lemmas about `Order.fill` -/

theorem Order.fill_orderId (o : Order) (q : Int) : (o.fill q).orderId = o.orderId := by
  unfold Order.fill
  split <;> rfl

theorem Order.fill_price (o : Order) (q : Int) : (o.fill q).price = o.price := by
  unfold Order.fill
  split <;> rfl

theorem Order.fill_filledQuantity_of_le (o : Order) (q : Int)
    (h : q ≤ o.getRemainingQuantity) :
    (o.fill q).filledQuantity = o.filledQuantity + q := by
  unfold Order.fill
  rw [if_pos h]

theorem Order.fill_rem_of_le (o : Order) (q : Int)
    (h : q ≤ o.getRemainingQuantity) :
    (o.fill q).getRemainingQuantity = o.getRemainingQuantity - q := by
  unfold Order.fill
  rw [if_pos h]
  simp only [Order.getRemainingQuantity]
  ring

/-! ### The matching loop: termination bound and defining equations -/

/-- Every iteration of the matching loop erases at least one order: the
side whose remaining quantity attained the minimum is filled to zero. -/
theorem matchStep_length (bb bs : Order) (rb rs : List Order) :
    ((if (bb.fill (min bb.getRemainingQuantity bs.getRemainingQuantity)).getRemainingQuantity = 0
        then rb
        else bb.fill (min bb.getRemainingQuantity bs.getRemainingQuantity) :: rb).length +
      (if (bs.fill (min bb.getRemainingQuantity bs.getRemainingQuantity)).getRemainingQuantity = 0
        then rs
        else bs.fill (min bb.getRemainingQuantity bs.getRemainingQuantity) :: rs).length) + 1
      ≤ (bb :: rb).length + (bs :: rs).length := by
  rcases min_choice bb.getRemainingQuantity bs.getRemainingQuantity with h | h
  · have h1 : (bb.fill (min bb.getRemainingQuantity bs.getRemainingQuantity)).getRemainingQuantity = 0 := by
      rw [Order.fill_rem_of_le _ _ (min_le_left _ _), h, sub_self]
    rw [if_pos h1]
    split <;> simp [List.length_cons] <;> omega
  · have h1 : (bs.fill (min bb.getRemainingQuantity bs.getRemainingQuantity)).getRemainingQuantity = 0 := by
      rw [Order.fill_rem_of_le _ _ (min_le_right _ _), h, sub_self]
    rw [if_pos h1]
    split <;> simp [List.length_cons] <;> omega

theorem matchLoop_of_buy_nil (fuel tid now : Nat) (b : OrderBook)
    (h : b.buyOrders = []) : OrderBook.matchLoop fuel tid now b = ([], b) := by
  cases fuel with
  | zero => rfl
  | succ f =>
    unfold OrderBook.matchLoop
    rw [h]

theorem matchLoop_of_sell_nil (fuel tid now : Nat) (b : OrderBook)
    (h : b.sellOrders = []) : OrderBook.matchLoop fuel tid now b = ([], b) := by
  cases fuel with
  | zero => rfl
  | succ f =>
    unfold OrderBook.matchLoop
    rw [h]
    cases b.buyOrders <;> rfl

theorem matchLoop_of_cross (fuel tid now : Nat) (b : OrderBook)
    (bb bs : Order) (rb rs : List Order)
    (hb : b.buyOrders = bb :: rb) (hs : b.sellOrders = bs :: rs)
    (hlt : bb.price < bs.price) : OrderBook.matchLoop fuel tid now b = ([], b) := by
  cases fuel with
  | zero => rfl
  | succ f =>
    unfold OrderBook.matchLoop
    rw [hb, hs]
    simp only [if_pos hlt]

theorem matchLoop_succ_step (f tid now : Nat) (b : OrderBook)
    (bb bs : Order) (rb rs : List Order)
    (hb : b.buyOrders = bb :: rb) (hs : b.sellOrders = bs :: rs)
    (hlt : ¬ bb.price < bs.price) :
    OrderBook.matchLoop (f + 1) tid now b =
      ({ tradeId := tid, tradeType := OrderType.buy,
         buyerOrderId := bb.orderId, sellerOrderId := bs.orderId,
         symbol := b.symbol,
         quantity := min bb.getRemainingQuantity bs.getRemainingQuantity,
         price := bs.price, timestamp := now } ::
          (OrderBook.matchLoop f (tid + 1) now
            { b with
              buyOrders :=
                if (bb.fill (min bb.getRemainingQuantity bs.getRemainingQuantity)).getRemainingQuantity = 0
                then rb
                else bb.fill (min bb.getRemainingQuantity bs.getRemainingQuantity) :: rb,
              sellOrders :=
                if (bs.fill (min bb.getRemainingQuantity bs.getRemainingQuantity)).getRemainingQuantity = 0
                then rs
                else bs.fill (min bb.getRemainingQuantity bs.getRemainingQuantity) :: rs,
              orderLookup :=
                lookupSet (lookupSet b.orderLookup bb.orderId
                    (bb.fill (min bb.getRemainingQuantity bs.getRemainingQuantity)))
                  bs.orderId
                  (bs.fill (min bb.getRemainingQuantity bs.getRemainingQuantity)) }).1,
       (OrderBook.matchLoop f (tid + 1) now
         { b with
           buyOrders :=
             if (bb.fill (min bb.getRemainingQuantity bs.getRemainingQuantity)).getRemainingQuantity = 0
             then rb
             else bb.fill (min bb.getRemainingQuantity bs.getRemainingQuantity) :: rb,
           sellOrders :=
             if (bs.fill (min bb.getRemainingQuantity bs.getRemainingQuantity)).getRemainingQuantity = 0
             then rs
             else bs.fill (min bb.getRemainingQuantity bs.getRemainingQuantity) :: rs,
           orderLookup :=
             lookupSet (lookupSet b.orderLookup bb.orderId
                 (bb.fill (min bb.getRemainingQuantity bs.getRemainingQuantity)))
               bs.orderId
               (bs.fill (min bb.getRemainingQuantity bs.getRemainingQuantity)) }).2) := by
  simp only [OrderBook.matchLoop]
  rw [hb, hs]
  simp only [if_neg hlt]

/-- The loop result does not depend on the fuel once the fuel covers the
total queue length: the loop genuinely terminates within that bound. -/
theorem matchLoop_congr : ∀ (f1 f2 tid now : Nat) (b : OrderBook),
    b.buyOrders.length + b.sellOrders.length ≤ f1 →
    b.buyOrders.length + b.sellOrders.length ≤ f2 →
    OrderBook.matchLoop f1 tid now b = OrderBook.matchLoop f2 tid now b := by
  intro f1
  induction f1 with
  | zero =>
    intro f2 tid now b h1 _h2
    have hb : b.buyOrders = [] := by
      have := Nat.le_zero.mp h1
      exact List.length_eq_zero.mp (by omega)
    rw [matchLoop_of_buy_nil _ _ _ _ hb, matchLoop_of_buy_nil _ _ _ _ hb]
  | succ f ih =>
    intro f2 tid now b h1 h2
    cases hb : b.buyOrders with
    | nil => rw [matchLoop_of_buy_nil _ _ _ _ hb, matchLoop_of_buy_nil _ _ _ _ hb]
    | cons bb rb =>
      cases hs : b.sellOrders with
      | nil => rw [matchLoop_of_sell_nil _ _ _ _ hs, matchLoop_of_sell_nil _ _ _ _ hs]
      | cons bs rs =>
        cases f2 with
        | zero =>
          rw [hb, hs] at h2
          simp [List.length_cons] at h2
        | succ f2' =>
          by_cases hlt : bb.price < bs.price
          · rw [matchLoop_of_cross _ _ _ _ _ _ _ _ hb hs hlt,
              matchLoop_of_cross _ _ _ _ _ _ _ _ hb hs hlt]
          · rw [matchLoop_succ_step _ _ _ _ _ _ _ _ hb hs hlt,
              matchLoop_succ_step _ _ _ _ _ _ _ _ hb hs hlt]
            have hstep := matchStep_length bb bs rb rs
            rw [hb, hs] at h1 h2
            simp only [List.length_cons] at h1 h2 hstep
            suffices hS : OrderBook.matchLoop f (tid + 1) now
                { b with
                  buyOrders :=
                    if (bb.fill (min bb.getRemainingQuantity bs.getRemainingQuantity)).getRemainingQuantity = 0
                    then rb
                    else bb.fill (min bb.getRemainingQuantity bs.getRemainingQuantity) :: rb,
                  sellOrders :=
                    if (bs.fill (min bb.getRemainingQuantity bs.getRemainingQuantity)).getRemainingQuantity = 0
                    then rs
                    else bs.fill (min bb.getRemainingQuantity bs.getRemainingQuantity) :: rs,
                  orderLookup :=
                    lookupSet (lookupSet b.orderLookup bb.orderId
                        (bb.fill (min bb.getRemainingQuantity bs.getRemainingQuantity)))
                      bs.orderId
                      (bs.fill (min bb.getRemainingQuantity bs.getRemainingQuantity)) } =
              OrderBook.matchLoop f2' (tid + 1) now
                { b with
                  buyOrders :=
                    if (bb.fill (min bb.getRemainingQuantity bs.getRemainingQuantity)).getRemainingQuantity = 0
                    then rb
                    else bb.fill (min bb.getRemainingQuantity bs.getRemainingQuantity) :: rb,
                  sellOrders :=
                    if (bs.fill (min bb.getRemainingQuantity bs.getRemainingQuantity)).getRemainingQuantity = 0
                    then rs
                    else bs.fill (min bb.getRemainingQuantity bs.getRemainingQuantity) :: rs,
                  orderLookup :=
                    lookupSet (lookupSet b.orderLookup bb.orderId
                        (bb.fill (min bb.getRemainingQuantity bs.getRemainingQuantity)))
                      bs.orderId
                      (bs.fill (min bb.getRemainingQuantity bs.getRemainingQuantity)) } by
              rw [hS]
            refine ih f2' (tid + 1) now _ ?_ ?_ <;>
              · dsimp only
                omega

/-- `matchOrders` stops at once when a side is empty. -/
theorem matchOrders_of_nil (b : OrderBook) (tid now : Nat)
    (h : b.buyOrders = [] ∨ b.sellOrders = []) :
    b.matchOrders tid now = ([], b) := by
  rcases h with h | h
  · exact matchLoop_of_buy_nil _ _ _ _ h
  · exact matchLoop_of_sell_nil _ _ _ _ h

/-- `matchOrders` stops at once when the best bid is below the best ask. -/
theorem matchOrders_of_cross (b : OrderBook) (tid now : Nat)
    (bb bs : Order) (rb rs : List Order)
    (hb : b.buyOrders = bb :: rb) (hs : b.sellOrders = bs :: rs)
    (hlt : bb.price < bs.price) : b.matchOrders tid now = ([], b) :=
  matchLoop_of_cross _ _ _ _ _ _ _ _ hb hs hlt

/-- The defining equation of one iteration of `matchOrders`. -/
theorem matchOrders_step (b : OrderBook) (tid now : Nat)
    (bb bs : Order) (rb rs : List Order)
    (hb : b.buyOrders = bb :: rb) (hs : b.sellOrders = bs :: rs)
    (hlt : ¬ bb.price < bs.price) (b' : OrderBook)
    (hb' : b' =
      { b with
        buyOrders :=
          if (bb.fill (min bb.getRemainingQuantity bs.getRemainingQuantity)).getRemainingQuantity = 0
          then rb
          else bb.fill (min bb.getRemainingQuantity bs.getRemainingQuantity) :: rb,
        sellOrders :=
          if (bs.fill (min bb.getRemainingQuantity bs.getRemainingQuantity)).getRemainingQuantity = 0
          then rs
          else bs.fill (min bb.getRemainingQuantity bs.getRemainingQuantity) :: rs,
        orderLookup :=
          lookupSet (lookupSet b.orderLookup bb.orderId
              (bb.fill (min bb.getRemainingQuantity bs.getRemainingQuantity)))
            bs.orderId
            (bs.fill (min bb.getRemainingQuantity bs.getRemainingQuantity)) }) :
    b.matchOrders tid now =
      ({ tradeId := tid, tradeType := OrderType.buy,
         buyerOrderId := bb.orderId, sellerOrderId := bs.orderId,
         symbol := b.symbol,
         quantity := min bb.getRemainingQuantity bs.getRemainingQuantity,
         price := bs.price, timestamp := now } ::
          (b'.matchOrders (tid + 1) now).1,
       (b'.matchOrders (tid + 1) now).2) := by
  have hlen : b.buyOrders.length + b.sellOrders.length = (rb.length + rs.length + 1) + 1 := by
    rw [hb, hs, List.length_cons, List.length_cons]
    omega
  have hstep := matchStep_length bb bs rb rs
  simp only [List.length_cons] at hstep
  have hball : b'.buyOrders.length + b'.sellOrders.length ≤ rb.length + rs.length + 1 := by
    rw [hb']
    dsimp only
    omega
  unfold OrderBook.matchOrders
  rw [hlen]
  rw [matchLoop_succ_step (rb.length + rs.length + 1) tid now b bb bs rb rs hb hs hlt]
  rw [← hb']
  rw [matchLoop_congr (rb.length + rs.length + 1) (b'.buyOrders.length + b'.sellOrders.length)
    (tid + 1) now b' hball (le_refl _)]

/-! ### Association-list lemmas -/

theorem find?_key_append {α : Type _} (l : List (String × α)) (id : String) (y : α)
    (h : l.any (fun p => p.1 == id) = false) :
    (l ++ [(id, y)]).find? (fun p => p.1 == id) = some (id, y) := by
  induction l with
  | nil => simp [List.find?]
  | cons p t ih =>
    rw [List.any_cons, Bool.or_eq_false_iff] at h
    rw [List.cons_append, List.find?_cons_of_neg _ (by simp [h.1]), ih h.2]

theorem find?_key_map_set {α : Type _} (l : List (String × α)) (id : String) (y : α)
    (h : l.any (fun p => p.1 == id) = true) :
    (l.map (fun p => if p.1 == id then (id, y) else p)).find?
        (fun p => p.1 == id) = some (id, y) := by
  induction l with
  | nil => simp at h
  | cons p t ih =>
    rw [List.any_cons] at h
    by_cases hp : (p.1 == id) = true
    · rw [List.map_cons, if_pos hp, List.find?_cons_of_pos _ (by simp)]
    · rw [List.map_cons, if_neg hp, List.find?_cons_of_neg _ (by simp [hp])]
      exact ih (by simpa [hp] using h)

theorem lookupFind_lookupSet_self (l : List (String × Order)) (orderId : String)
    (o : Order) : lookupFind (lookupSet l orderId o) orderId = some o := by
  unfold lookupFind lookupSet
  split_ifs with h
  · rw [find?_key_map_set l orderId o h]
    rfl
  · rw [find?_key_append l orderId o (by simp only [Bool.not_eq_true] at h; exact h)]
    rfl

theorem booksFind_booksSet_self (l : List (String × OrderBook)) (symbol : String)
    (bk : OrderBook) : booksFind (booksSet l symbol bk) symbol = some bk := by
  unfold booksFind booksSet
  split_ifs with h
  · rw [find?_key_map_set l symbol bk h]
    rfl
  · rw [find?_key_append l symbol bk (by simp only [Bool.not_eq_true] at h; exact h)]
    rfl

/-! ### The matching loop leaves no crossed book -/

theorem matchLoop_noCross : ∀ (fuel tid now : Nat) (b : OrderBook),
    b.buyOrders.length + b.sellOrders.length ≤ fuel →
    (OrderBook.matchLoop fuel tid now b).2.buyOrders ≠ [] →
    (OrderBook.matchLoop fuel tid now b).2.sellOrders ≠ [] →
    (OrderBook.matchLoop fuel tid now b).2.getBestBid <
      (OrderBook.matchLoop fuel tid now b).2.getBestAsk := by
  intro fuel
  induction fuel with
  | zero =>
    intro tid now b hfuel h1 h2
    have hb : b.buyOrders = [] := List.length_eq_zero.mp (by omega)
    rw [matchLoop_of_buy_nil _ _ _ _ hb] at h1
    exact absurd hb h1
  | succ f ih =>
    intro tid now b hfuel h1 h2
    cases hb : b.buyOrders with
    | nil =>
      rw [matchLoop_of_buy_nil _ _ _ _ hb] at h1
      exact absurd hb h1
    | cons bb rb =>
      cases hs : b.sellOrders with
      | nil =>
        rw [matchLoop_of_sell_nil _ _ _ _ hs] at h2
        exact absurd hs h2
      | cons bs rs =>
        by_cases hlt : bb.price < bs.price
        · rw [matchLoop_of_cross _ _ _ _ _ _ _ _ hb hs hlt]
          unfold OrderBook.getBestBid OrderBook.getBestAsk
          rw [hb, hs]
          exact hlt
        · rw [matchLoop_succ_step _ _ _ _ _ _ _ _ hb hs hlt] at h1 h2 ⊢
          have hstep := matchStep_length bb bs rb rs
          simp only [List.length_cons] at hstep
          rw [hb, hs] at hfuel
          simp only [List.length_cons] at hfuel
          exact ih (tid + 1) now _ (by dsimp only; omega) h1 h2

theorem matchOrders_noCross (b : OrderBook) (tid now : Nat)
    (h1 : (b.matchOrders tid now).2.buyOrders ≠ [])
    (h2 : (b.matchOrders tid now).2.sellOrders ≠ []) :
    (b.matchOrders tid now).2.getBestBid < (b.matchOrders tid now).2.getBestAsk :=
  matchLoop_noCross _ tid now b (le_refl _) h1 h2

/-! ### Engine success-path shapes -/

/-- A successful book `modifyOrder` always leaves the modified order in the
id-map. -/
theorem modifyOrder_getOrder_isSome (b b' : OrderBook) (orderId : String)
    (q : Int) (p : ℚ) (hm : b.modifyOrder orderId q p = some b') :
    (b'.getOrder orderId).isSome = true := by
  unfold OrderBook.modifyOrder at hm
  rcases hfind : lookupFind b.orderLookup orderId with _ | existing
  · rw [hfind] at hm
    exact absurd hm (by simp)
  · rw [hfind] at hm
    dsimp only at hm
    by_cases h1 : existing.canModify = true
    case neg => rw [if_neg h1] at hm; exact absurd hm (by simp)
    rw [if_pos h1] at hm
    rcases hq : existing.setQuantity q with ⟨ok1, m1⟩
    rw [hq] at hm
    dsimp only at hm
    by_cases h2 : ok1 = true
    case neg => rw [if_neg h2] at hm; exact absurd hm (by simp)
    rw [if_pos h2] at hm
    rcases hp2 : m1.setPrice p with ⟨ok2, m2⟩
    rw [hp2] at hm
    dsimp only at hm
    by_cases h3 : ok2 = true
    case neg => rw [if_neg h3] at hm; exact absurd hm (by simp)
    rw [if_pos h3] at hm
    rw [if_pos h1] at hm
    by_cases ht : existing.orderType = OrderType.buy
    · rw [if_pos ht] at hm
      dsimp only at hm
      by_cases h5 : (eraseFirstById orderId b.buyOrders).1 = true
      case neg => rw [if_neg h5] at hm; exact absurd hm (by simp)
      rw [if_pos h5] at hm
      simp only [Option.some.injEq] at hm
      subst hm
      unfold OrderBook.getOrder
      dsimp only
      rw [lookupFind_lookupSet_self]
      rfl
    · rw [if_neg ht] at hm
      dsimp only at hm
      by_cases h5 : (eraseFirstById orderId b.sellOrders).1 = true
      case neg => rw [if_neg h5] at hm; exact absurd hm (by simp)
      rw [if_pos h5] at hm
      simp only [Option.some.injEq] at hm
      subst hm
      unfold OrderBook.getOrder
      dsimp only
      rw [lookupFind_lookupSet_self]
      rfl

/-- The state and events a *successful* `placeOrder` produces: the affected
book is the result of `matchOrders` on the post-insert book, and the events
are one status event for the accepted order followed by the trade events in
production order. -/
theorem placeOrder_success_shape (e : TradingEngine) (userId : String)
    (ot : OrderType) (symbol : String) (qty : Int) (price : ℚ)
    (oid : String) (now tid : Nat) (o : Order) (e' : TradingEngine)
    (evs : List EngineEvent)
    (hp : e.placeOrder userId ot symbol qty price oid now tid = (some o, e', evs)) :
    ∃ book1 : OrderBook,
      booksFind e'.orderBooks symbol = some (book1.matchOrders tid now).2 ∧
      evs = EngineEvent.orderStatusChanged o ::
        ((book1.matchOrders tid now).1).map EngineEvent.tradeExecuted := by
  unfold TradingEngine.placeOrder at hp
  by_cases h1 : e.getUser userId = true
  case neg => rw [if_neg h1] at hp; exact absurd hp (by simp)
  rw [if_pos h1] at hp
  by_cases h2 : price < 0
  case pos => rw [if_pos h2] at hp; exact absurd hp (by simp)
  rw [if_neg h2] at hp
  dsimp only at hp
  by_cases h3 : (if price > 0 then mkLimitOrder oid userId ot symbol qty price now
      else mkMarketOrder oid userId ot symbol qty now).isValid = true
  case neg => rw [if_neg h3] at hp; exact absurd hp (by simp)
  rw [if_pos h3] at hp
  rcases hgoc : e.getOrCreateOrderBook symbol with ⟨orderBook, e1⟩
  rw [hgoc] at hp
  dsimp only at hp
  rcases hadd : orderBook.addOrder
      (if price > 0 then mkLimitOrder oid userId ot symbol qty price now
       else mkMarketOrder oid userId ot symbol qty now) with _ | book1
  · rw [hadd] at hp
    exact absurd hp (by simp)
  · rw [hadd] at hp
    dsimp only at hp
    rcases hmatch : book1.matchOrders tid now with ⟨trades, book2⟩
    rw [hmatch] at hp
    dsimp only at hp
    simp only [Prod.mk.injEq, Option.some.injEq] at hp
    refine ⟨book1, ?_, ?_⟩
    · rw [← hp.2.1]
      dsimp only
      rw [hmatch]
      exact booksFind_booksSet_self _ _ _
    · rw [← hp.2.2, ← hp.1, hmatch]

/-- The state and events a *successful* `modifyOrder` produces. -/
theorem modifyOrder_success_shape (e : TradingEngine) (userId orderId : String)
    (newQty : Int) (newPrice : ℚ) (tid now : Nat) (e' : TradingEngine)
    (evs : List EngineEvent) (ord : Order)
    (hm : e.modifyOrder userId orderId newQty newPrice tid now = (true, e', evs))
    (hord : lookupFind e.allOrders orderId = some ord) :
    ∃ book1 : OrderBook,
      booksFind e'.orderBooks ord.symbol = some (book1.matchOrders tid now).2 ∧
      ∃ mo : Order, evs = EngineEvent.orderStatusChanged mo ::
        ((book1.matchOrders tid now).1).map EngineEvent.tradeExecuted := by
  unfold TradingEngine.modifyOrder at hm
  by_cases h1 : e.getUser userId = true
  case neg => rw [if_neg h1] at hm; exact absurd hm (by simp)
  rw [if_pos h1] at hm
  by_cases h2 : newPrice < 0
  case pos => rw [if_pos h2] at hm; exact absurd hm (by simp)
  rw [if_neg h2, hord] at hm
  dsimp only at hm
  by_cases h3 : ord.userId = userId
  case neg => rw [if_neg h3] at hm; exact absurd hm (by simp)
  rw [if_pos h3] at hm
  rcases hbk : booksFind e.orderBooks ord.symbol with _ | orderBook
  · rw [hbk] at hm
    exact absurd hm (by simp)
  · rw [hbk] at hm
    dsimp only at hm
    rcases hmod : orderBook.modifyOrder orderId newQty newPrice with _ | book1
    · rw [hmod] at hm
      exact absurd hm (by simp)
    · rw [hmod] at hm
      dsimp only at hm
      rcases hget : book1.getOrder orderId with _ | modifiedOrder
      · have := modifyOrder_getOrder_isSome _ _ _ _ _ hmod
        rw [hget] at this
        exact absurd this (by simp)
      · rw [hget] at hm
        dsimp only at hm
        rcases hmatch : book1.matchOrders tid now with ⟨trades, book2⟩
        rw [hmatch] at hm
        dsimp only at hm
        simp only [Prod.mk.injEq, true_and] at hm
        refine ⟨book1, ?_, modifiedOrder, ?_⟩
        · rw [← hm.1]
          dsimp only
          rw [hmatch]
          exact booksFind_booksSet_self _ _ _
        · rw [← hm.2, hmatch]

/-! ### Claim theorems -/

/-- Claim C1: for every order book, `match()` loops while both sides are
non-empty: it stops as soon as the best bid's price is strictly less than
the best ask's price; otherwise it trades
`q = min(best bid remaining, best ask remaining)`, fills both best orders
by exactly `q`, removes each side's best order exactly when its remaining
quantity reaches `0`, and returns the trades in the exact order this loop
produced them (determinism is inherent: `matchOrders` is a function of the
book). -/
theorem matchOrders_loop_characterization (b : OrderBook) (tid now : Nat) :
    ((b.buyOrders = [] ∨ b.sellOrders = []) → b.matchOrders tid now = ([], b)) ∧
    (∀ bestBuy restBuys bestSell restSells,
      b.buyOrders = bestBuy :: restBuys →
      b.sellOrders = bestSell :: restSells →
      (bestBuy.price < bestSell.price → b.matchOrders tid now = ([], b)) ∧
      (∀ q : Int, q = min bestBuy.getRemainingQuantity bestSell.getRemainingQuantity →
        ∀ b' : OrderBook,
        b' = { b with
               buyOrders :=
                 if (bestBuy.fill q).getRemainingQuantity = 0 then restBuys
                 else bestBuy.fill q :: restBuys,
               sellOrders :=
                 if (bestSell.fill q).getRemainingQuantity = 0 then restSells
                 else bestSell.fill q :: restSells,
               orderLookup :=
                 lookupSet (lookupSet b.orderLookup bestBuy.orderId (bestBuy.fill q))
                   bestSell.orderId (bestSell.fill q) } →
        ¬ bestBuy.price < bestSell.price →
        (bestBuy.fill q).filledQuantity = bestBuy.filledQuantity + q ∧
        (bestSell.fill q).filledQuantity = bestSell.filledQuantity + q ∧
        b.matchOrders tid now =
          ({ tradeId := tid, tradeType := OrderType.buy,
             buyerOrderId := bestBuy.orderId, sellerOrderId := bestSell.orderId,
             symbol := b.symbol, quantity := q, price := bestSell.price,
             timestamp := now } :: (b'.matchOrders (tid + 1) now).1,
           (b'.matchOrders (tid + 1) now).2))) := by
  constructor
  · exact matchOrders_of_nil b tid now
  · intro bb rb bs rs hb hs
    constructor
    · intro hlt
      exact matchOrders_of_cross b tid now bb bs rb rs hb hs hlt
    · intro q hq b' hb' hlt
      subst hq
      exact ⟨Order.fill_filledQuantity_of_le _ _ (min_le_left _ _),
             Order.fill_filledQuantity_of_le _ _ (min_le_right _ _),
             matchOrders_step b tid now bb bs rb rs hb hs hlt b' hb'⟩

/-- Witness for C1: one crossing pair (bid 3@10, ask 3@10) steps through
one loop iteration. -/
theorem matchOrders_loop_characterization_witness :
    (ordW1buy.fill (min ordW1buy.getRemainingQuantity ordW1sell.getRemainingQuantity)).filledQuantity
        = ordW1buy.filledQuantity + min ordW1buy.getRemainingQuantity ordW1sell.getRemainingQuantity ∧
    (ordW1sell.fill (min ordW1buy.getRemainingQuantity ordW1sell.getRemainingQuantity)).filledQuantity
        = ordW1sell.filledQuantity + min ordW1buy.getRemainingQuantity ordW1sell.getRemainingQuantity ∧
    bkW1.matchOrders 5 9 =
      ({ tradeId := 5, tradeType := OrderType.buy,
         buyerOrderId := ordW1buy.orderId, sellerOrderId := ordW1sell.orderId,
         symbol := bkW1.symbol,
         quantity := min ordW1buy.getRemainingQuantity ordW1sell.getRemainingQuantity,
         price := ordW1sell.price, timestamp := 9 } ::
          (bkW1step.matchOrders 6 9).1,
       (bkW1step.matchOrders 6 9).2) :=
  ((matchOrders_loop_characterization bkW1 5 9).2 ordW1buy [] ordW1sell []
      (by decide) (by decide)).2
    (min ordW1buy.getRemainingQuantity ordW1sell.getRemainingQuantity) rfl
    bkW1step rfl (by decide)

/-- Claim C2 (code bug): the matching loop always prices a trade at
`bestSell->getPrice()`.  With a buy resting at 105 (arrived first) and a
sell arriving at 100 (the aggressor), the trade executes at 100 — the
aggressor's price — where the claim requires the resting side's 105. -/
theorem matchOrders_price_uses_aggressor_sell_price :
    (OrderBook.init "S").addOrder (mkLimitOrder "B1" "U1" OrderType.buy "S" 10 105 1)
        = some bkC2a ∧
    bkC2a.addOrder (mkLimitOrder "S1" "U2" OrderType.sell "S" 10 100 2) = some bkC2b ∧
    (bkC2b.getOrder "B1").map Order.price = some 105 ∧
    (bkC2b.getOrder "B1").map Order.timestamp = some 1 ∧
    (bkC2b.getOrder "S1").map Order.timestamp = some 2 ∧
    (bkC2b.matchOrders 0 3).1.map Trade.price = [100] ∧
    (bkC2b.matchOrders 0 3).1.map Trade.price ≠ [105] := by decide

/-- Claim C7 counterexample: `setStatus` overwrites a terminal status
unconditionally, and `fill` on a CANCELLED order with remaining quantity
moves it to PARTIALLY_FILLED. -/
theorem terminal_status_not_absorbing_counterexample :
    ordFilledC7.status = OrderStatus.filled ∧
    (ordFilledC7.setStatus OrderStatus.accepted).1 = true ∧
    (ordFilledC7.setStatus OrderStatus.accepted).2.status = OrderStatus.accepted ∧
    ordCancelledC7.status = OrderStatus.cancelled ∧
    (ordCancelledC7.fill 3).status = OrderStatus.partiallyFilled := by decide

/-- Claim C7 (amended): `fill` never changes a fully-filled order and
`filledQuantity` is non-decreasing under non-negative fills; `setQuantity`
and `setPrice` fail and change nothing on a terminal-status order and never
change the status; but `setStatus` overwrites the status unconditionally
(terminal statuses are not absorbing at the `Order` interface). -/
theorem order_terminal_and_monotone (o : Order) (q n : Int) (p : ℚ)
    (s : OrderStatus) :
    (o.filledQuantity = o.quantity → 0 < n → o.fill n = o) ∧
    (0 ≤ n → o.filledQuantity ≤ (o.fill n).filledQuantity) ∧
    (o.status = OrderStatus.filled ∨ o.status = OrderStatus.cancelled ∨
        o.status = OrderStatus.rejected →
      (o.setQuantity q).1 = false ∧ (o.setQuantity q).2 = o ∧
      (o.setPrice p).1 = false ∧ (o.setPrice p).2 = o) ∧
    (o.setQuantity q).2.status = o.status ∧
    (o.setPrice p).2.status = o.status ∧
    (o.setStatus s).2.status = s := by
  have hsetq2 : (o.setQuantity q).2.status = o.status := by
    unfold Order.setQuantity
    split_ifs <;> rfl
  have hsetp2 : (o.setPrice p).2.status = o.status := by
    unfold Order.setPrice
    cases o.kind <;> dsimp only <;> split_ifs <;> rfl
  refine ⟨?_, ?_, ?_, hsetq2, hsetp2, rfl⟩
  · intro hfull hn
    unfold Order.fill
    rw [if_neg]
    unfold Order.getRemainingQuantity
    omega
  · intro hn
    unfold Order.fill
    split
    · dsimp only
      omega
    · exact le_refl _
  · intro hterm
    have hcm : o.canModify = false := by
      unfold Order.canModify
      rcases hterm with h | h | h <;> rw [h] <;> rfl
    refine ⟨?_, ?_, ?_, ?_⟩
    · unfold Order.setQuantity
      split_ifs with h1 h2
      · rfl
      · rw [Order.canModify] at hcm
        rw [Order.canModify] at h2
        simp [hcm] at h2
      · rfl
    · unfold Order.setQuantity
      split_ifs with h1 h2
      · rfl
      · rw [hcm] at h2
        exact absurd h2 (by simp)
      · rfl
    · unfold Order.setPrice
      cases o.kind <;> dsimp only
      split_ifs with h1 h2
      · rfl
      · rw [hcm] at h2
        exact absurd h2 (by simp)
      · rfl
    · unfold Order.setPrice
      cases o.kind <;> dsimp only
      split_ifs with h1 h2
      · rfl
      · rw [hcm] at h2
        exact absurd h2 (by simp)
      · rfl

/-- Witness for C7 (amended), at a concrete FILLED order. -/
theorem order_terminal_and_monotone_witness :
    ordFilledC7.fill 4 = ordFilledC7 ∧
    ordFilledC7.filledQuantity ≤ (ordFilledC7.fill 4).filledQuantity ∧
    ((ordFilledC7.setQuantity 5).1 = false ∧
      (ordFilledC7.setQuantity 5).2 = ordFilledC7 ∧
      (ordFilledC7.setPrice 77).1 = false ∧
      (ordFilledC7.setPrice 77).2 = ordFilledC7) ∧
    (ordFilledC7.setQuantity 5).2.status = ordFilledC7.status ∧
    (ordFilledC7.setPrice 77).2.status = ordFilledC7.status ∧
    (ordFilledC7.setStatus OrderStatus.accepted).2.status = OrderStatus.accepted := by
  have h := order_terminal_and_monotone ordFilledC7 5 4 77 OrderStatus.accepted
  exact ⟨h.1 (by decide) (by decide), h.2.1 (by decide),
    h.2.2.1 (Or.inl (by decide)), h.2.2.2.1, h.2.2.2.2.1, h.2.2.2.2.2⟩

/-- Claim C8 (code bug): with pairwise-distinct timestamps and the prices
`0`, `10⁻⁹`, `2·10⁻⁹`, both comparators order the first element before the
second and the second before the third, yet not the first before the
third: transitivity fails, so neither comparator is a strict weak order
(which `std::multiset` requires). -/
theorem comparators_not_transitive :
    ordP1.timestamp ≠ ordP2.timestamp ∧ ordP1.timestamp ≠ ordP3.timestamp ∧
    ordP2.timestamp ≠ ordP3.timestamp ∧
    BuyOrderComparator ordP1 ordP2 = true ∧
    BuyOrderComparator ordP2 ordP3 = true ∧
    BuyOrderComparator ordP1 ordP3 = false ∧
    BuyOrderComparator ordP3 ordP1 = true ∧
    ordQ1.timestamp ≠ ordQ2.timestamp ∧ ordQ1.timestamp ≠ ordQ3.timestamp ∧
    ordQ2.timestamp ≠ ordQ3.timestamp ∧
    SellOrderComparator ordQ1 ordQ2 = true ∧
    SellOrderComparator ordQ2 ordQ3 = true ∧
    SellOrderComparator ordQ1 ordQ3 = false ∧
    SellOrderComparator ordQ3 ordQ1 = true := by decide

/-- Claim C6 (amended): `modify(orderId, newQty, newPrice)` is equivalent
to atomically removing the order and re-inserting a clone with the updated
quantity and price, the same `orderId` and the *same* (not refreshed)
`arrivalTime`, status ACCEPTED; it fails, leaving the book unchanged, iff
the order is absent from the id-map or its side queue, cannot be modified,
or the new values are rejected (a MARKET order rejects every new price). -/
theorem modifyOrder_eq_removeThenReinsert (b : OrderBook) (orderId : String)
    (newQuantity : Int) (newPrice : ℚ) :
    b.modifyOrder orderId newQuantity newPrice =
      removeThenReinsertSpec b orderId newQuantity newPrice := by
  unfold OrderBook.modifyOrder removeThenReinsertSpec OrderBook.getOrder
  rcases hfind : lookupFind b.orderLookup orderId with _ | old
  · rfl
  · dsimp only
    by_cases h1 : old.canModify = true
    case neg =>
      rw [if_neg h1, if_neg (fun hc => h1 hc.1)]
    rw [if_pos h1]
    by_cases hq : newQuantity ≤ 0 ∨ newQuantity > MAX_ORDER_QUANTITY
    · have hsq : old.setQuantity newQuantity = (false, old) := by
        unfold Order.setQuantity
        rw [if_pos hq]
      rw [hsq]
      dsimp only
      rw [if_neg (by simp), if_neg (fun hc => hc.2.1 hq)]
    · have hsq : old.setQuantity newQuantity =
          (true, { old with quantity := newQuantity }) := by
        unfold Order.setQuantity
        rw [if_neg hq, if_pos h1]
      rw [hsq]
      dsimp only
      rw [if_pos rfl]
      by_cases hk : old.kind = OrderKind.limitOrder
      · -- LIMIT order
        by_cases hp : newPrice < MIN_ORDER_PRICE ∨ newPrice > MAX_ORDER_PRICE
        · have hsp : ({ old with quantity := newQuantity } : Order).setPrice newPrice =
              (false, { old with quantity := newQuantity }) := by
            unfold Order.setPrice
            dsimp only
            rw [hk]
            dsimp only
            rw [if_pos hp]
          rw [hsp]
          dsimp only
          rw [if_neg (by simp), if_neg (fun hc => hc.2.2.2 hp)]
        · have hcm1 : ({ old with quantity := newQuantity } : Order).canModify = true := by
            unfold Order.canModify at h1 ⊢
            exact h1
          have hsp : ({ old with quantity := newQuantity } : Order).setPrice newPrice =
              (true, { old with quantity := newQuantity, price := newPrice }) := by
            unfold Order.setPrice
            dsimp only
            rw [hk]
            dsimp only
            have hcm2 := hcm1
            rw [hk] at hcm2
            rw [if_neg hp, if_pos hcm2]
          rw [hsp]
          dsimp only
          rw [if_pos rfl]
          rw [if_pos (show old.canModify = true ∧
            ¬(newQuantity ≤ 0 ∨ newQuantity > MAX_ORDER_QUANTITY) ∧
            old.kind = OrderKind.limitOrder ∧
            ¬(newPrice < MIN_ORDER_PRICE ∨ newPrice > MAX_ORDER_PRICE) from ⟨h1, hq, hk, hp⟩)]
          rw [if_pos h1]
          by_cases ht : old.orderType = OrderType.buy
          · rw [if_pos ht, if_pos ht]
            rcases he : eraseFirstById orderId b.buyOrders with ⟨removed, buys'⟩
            dsimp only
            cases removed
            · rfl
            · rw [if_pos rfl]
              simp only [Order.setStatus, if_pos ht]
          · rw [if_neg ht, if_neg ht]
            rcases he : eraseFirstById orderId b.sellOrders with ⟨removed, sells'⟩
            dsimp only
            cases removed
            · rfl
            · rw [if_pos rfl]
              simp only [Order.setStatus, if_neg ht]
      · -- MARKET order: setPrice always fails
        have hk2 : old.kind = OrderKind.marketOrder := by
          cases hkk : old.kind
          · exact absurd hkk hk
          · rfl
        have hsp : ({ old with quantity := newQuantity } : Order).setPrice newPrice =
            (false, { old with quantity := newQuantity }) := by
          unfold Order.setPrice
          dsimp only
          rw [hk2]
        rw [hsp]
        dsimp only
        rw [if_neg (by simp), if_neg (fun hc => hk hc.2.2.1)]

/-- Claim C10: `Order::fill` with a quantity strictly greater than the
remaining quantity is a complete no-op (the whole object is unchanged). -/
theorem fill_overLarge_is_noop (o : Order) (fillQuantity : Int)
    (h : o.getRemainingQuantity < fillQuantity) : o.fill fillQuantity = o := by
  unfold Order.fill
  rw [if_neg (not_le.mpr h)]

/-- Witness for C10. -/
theorem fill_overLarge_is_noop_witness : ordW10.fill 11 = ordW10 :=
  fill_overLarge_is_noop ordW10 11 (by decide)

/-- Claim C6 counterexample: two equal-priced bids `o1` (t=1) and `o2`
(t=2); modifying `o1` (qty 10 → 5) keeps its original arrival time 1, so
the modified order is re-inserted *ahead* of `o2` and keeps time priority,
whereas re-insertion with a refreshed arrival time (3) would place it
behind `o2`. -/
theorem modify_keeps_time_priority_counterexample :
    bkC6b.modifyOrder "o1" 5 100 = some bkC6c ∧
    bkC6c.buyOrders.map Order.orderId = ["o1", "o2"] ∧
    (bkC6c.getOrder "o1").map Order.timestamp = some 1 ∧
    (bkC6c.getOrder "o1").map Order.quantity = some 5 ∧
    (insertSorted BuyOrderComparator ordC6refreshed
        (eraseFirstById "o1" bkC6b.buyOrders).2).map Order.orderId = ["o2", "o1"] := by
  decide

/-! ### Lemmas for the C5 invariant -/

theorem mem_insertSorted (lt : Order → Order → Bool) (x y : Order) :
    ∀ l : List Order, y ∈ insertSorted lt x l → y = x ∨ y ∈ l := by
  intro l
  induction l with
  | nil =>
    intro hy
    simp only [insertSorted] at hy
    simp at hy
    exact Or.inl hy
  | cons z zs ih =>
    intro hy
    simp only [insertSorted] at hy
    split at hy
    · rcases List.mem_cons.mp hy with h | h
      · exact Or.inl h
      · exact Or.inr h
    · rcases List.mem_cons.mp hy with h | h
      · exact Or.inr (by rw [h]; exact List.mem_cons_self z zs)
      · rcases ih h with h' | h'
        · exact Or.inl h'
        · exact Or.inr (List.mem_cons_of_mem z h')

theorem mem_eraseFirstById (orderId : String) (y : Order) :
    ∀ l : List Order, y ∈ (eraseFirstById orderId l).2 → y ∈ l := by
  intro l
  induction l with
  | nil =>
    intro hy
    simp [eraseFirstById] at hy
  | cons z zs ih =>
    intro hy
    simp only [eraseFirstById] at hy
    split at hy
    · exact List.mem_cons_of_mem z hy
    · dsimp only at hy
      rcases List.mem_cons.mp hy with h | h
      · exact h ▸ List.mem_cons_self z zs
      · exact List.mem_cons_of_mem z (ih h)

theorem eraseFirstById_true_length (orderId : String) :
    ∀ l : List Order, (eraseFirstById orderId l).1 = true →
      (eraseFirstById orderId l).2.length + 1 = l.length := by
  intro l
  induction l with
  | nil =>
    intro h
    simp [eraseFirstById] at h
  | cons z zs ih =>
    intro h
    simp only [eraseFirstById] at h ⊢
    split at h
    · split
      · simp [List.length_cons]
      · simp_all
    · dsimp only at h
      split
      · simp_all
      · dsimp only
        rw [List.length_cons, List.length_cons, ← ih h]

theorem any_key_iff_mem_lookupKeys (l : List (String × Order)) (id : String) :
    (l.any fun p => p.1 == id) = true ↔ id ∈ lookupKeys l := by
  unfold lookupKeys
  rw [List.any_eq_true]
  constructor
  · rintro ⟨p, hp, hbeq⟩
    have : p.1 = id := by simpa using hbeq
    exact this ▸ List.mem_map_of_mem _ hp
  · intro hmem
    rcases List.mem_map.mp hmem with ⟨p, hp, hkey⟩
    exact ⟨p, hp, by simp [hkey]⟩

theorem lookupKeys_lookupSet_of_mem (l : List (String × Order)) (id : String)
    (o : Order) (h : id ∈ lookupKeys l) :
    lookupKeys (lookupSet l id o) = lookupKeys l := by
  unfold lookupSet
  rw [if_pos ((any_key_iff_mem_lookupKeys l id).mpr h)]
  unfold lookupKeys
  rw [List.map_map]
  apply List.map_congr_left
  intro p _
  by_cases hp : (p.1 == id) = true
  · simp only [Function.comp, if_pos hp]
    exact ((by simpa using hp : p.1 = id)).symm
  · simp only [Function.comp, if_neg hp]

theorem mem_lookupKeys_lookupSet (l : List (String × Order)) (id x : String)
    (o : Order) (h : x ∈ lookupKeys l) : x ∈ lookupKeys (lookupSet l id o) := by
  by_cases hany : (l.any fun p => p.1 == id) = true
  · rw [lookupKeys_lookupSet_of_mem l id o ((any_key_iff_mem_lookupKeys l id).mp hany)]
    exact h
  · unfold lookupSet
    rw [if_neg hany]
    unfold lookupKeys at h ⊢
    rw [List.map_append]
    exact List.mem_append_left _ h

theorem self_mem_lookupKeys_lookupSet (l : List (String × Order)) (id : String)
    (o : Order) : id ∈ lookupKeys (lookupSet l id o) := by
  by_cases hany : (l.any fun p => p.1 == id) = true
  · rw [lookupKeys_lookupSet_of_mem l id o ((any_key_iff_mem_lookupKeys l id).mp hany)]
    exact (any_key_iff_mem_lookupKeys l id).mp hany
  · unfold lookupSet
    rw [if_neg hany]
    unfold lookupKeys
    rw [List.map_append]
    exact List.mem_append_right _ (by simp)

theorem mem_lookupSet (l : List (String × Order)) (id : String) (o : Order)
    (p : String × Order) (hp : p ∈ lookupSet l id o) :
    p = (id, o) ∨ p ∈ l := by
  unfold lookupSet at hp
  split_ifs at hp with hany
  · rcases List.mem_map.mp hp with ⟨q, hq, hfq⟩
    by_cases hqid : (q.1 == id) = true
    · rw [if_pos hqid] at hfq
      exact Or.inl hfq.symm
    · rw [if_neg hqid] at hfq
      exact Or.inr (hfq ▸ hq)
  · rcases List.mem_append.mp hp with h | h
    · exact Or.inr h
    · exact Or.inl (by simpa using h)

/-- Claim C9 (amended): an accepting `placeOrder` publishes first exactly
one `onOrderStatusChanged` for the newly accepted order, and every
subsequent event of the call is an `onTradeExecuted` (one per produced
trade, in production order); no `onOrderStatusChanged` is published for
the fills the trades cause. -/
theorem placeOrder_event_order (e : TradingEngine) (userId : String)
    (ot : OrderType) (symbol : String) (qty : Int) (price : ℚ)
    (oid : String) (now tid : Nat) (o : Order) (e' : TradingEngine)
    (evs : List EngineEvent)
    (hp : e.placeOrder userId ot symbol qty price oid now tid = (some o, e', evs)) :
    evs.head? = some (EngineEvent.orderStatusChanged o) ∧
    evs.tail.all isTradeExecutedEvent = true ∧
    ∃ trades : List Trade,
      evs = EngineEvent.orderStatusChanged o :: trades.map EngineEvent.tradeExecuted := by
  obtain ⟨book1, _, hevs⟩ :=
    placeOrder_success_shape e userId ot symbol qty price oid now tid o e' evs hp
  subst hevs
  refine ⟨rfl, ?_, (book1.matchOrders tid now).1, rfl⟩
  simp [List.all_map, isTradeExecutedEvent, Function.comp]

/-- Claim C9 counterexample: a crossing placement produces one trade that
moves both orders to FILLED (their statuses changed as a result of the
trade), but the engine publishes exactly two events — the accept-status
event and the trade event — with no `onOrderStatusChanged` after the
trade. -/
theorem placeOrder_publishes_no_fill_status_events :
    placeC9.2.2.map isTradeExecutedEvent = [false, true] ∧
    placeC9.2.2.length = 2 ∧
    (booksFind placeC9.2.1.orderBooks "W").map
        (fun bk => ((bk.getOrder "B1").map Order.status,
          (bk.getOrder "S1").map Order.status))
      = some (some OrderStatus.filled, some OrderStatus.filled) := by decide

/-- Witness for C9 (amended), on the crossing placement `placeC9`. -/
theorem placeOrder_event_order_witness :
    placeC9.2.2.head? = some (EngineEvent.orderStatusChanged ordC9) ∧
    placeC9.2.2.tail.all isTradeExecutedEvent = true := by
  have h := placeOrder_event_order engC9 "U1" OrderType.sell "W" 10 500 "S1" 2 0
    ordC9 placeC9.2.1 placeC9.2.2 (by decide)
  exact ⟨h.1, h.2.1⟩

/-- Claim C3 (code bug): the cross check uses the stored price `0` of a
MARKET order with no `±∞` special case, and nothing cancels a MARKET
remainder.  Scenario A: against a resting limit buy 50@500, a MARKET sell
for 100 trades 50 *at price 0* and its remainder rests in the book as
PARTIALLY_FILLED (not CANCELLED).  Scenario B: against a resting limit sell
50@500, a MARKET buy (stored price 0, treated as a bid of 0, not `+∞`)
produces no trade at all and rests as ACCEPTED. -/
theorem marketOrder_no_infinity_and_remainder_rests :
    (placeC3a.1.map Order.orderId = some "S1" ∧
      placeC3a.2.2.length = 2 ∧
      (booksFind placeC3a.2.1.orderBooks "W").map
          (fun bk => bk.sellOrders.map (fun o => (o.orderId, o.status, o.filledQuantity)))
        = some [("S1", OrderStatus.partiallyFilled, 50)] ∧
      (booksFind placeC3a.2.1.orderBooks "W").map
          (fun bk => (bk.getOrder "S1").map Order.status)
        ≠ some (some OrderStatus.cancelled)) ∧
    (placeC3b.1.map Order.orderId = some "B9" ∧
      placeC3b.2.2.map isTradeExecutedEvent = [false] ∧
      (booksFind placeC3b.2.1.orderBooks "W").map
          (fun bk => (bk.buyOrders.map (fun o => (o.orderId, o.status)),
            bk.sellOrders.length))
        = some ([("B9", OrderStatus.accepted)], 1)) := by decide

/-- Claim C4 (amended): after every *successful* `placeOrder` and every
*successful* `modifyOrder` — the engine operations that end by running the
matching loop — the affected book satisfies `bestBid() < bestAsk()`
whenever both of its sides are non-empty.  (`cancelOrder` does not re-run
the match and can expose a residual cross between ε-tied prices; see the
counterexample.) -/
theorem engine_noCross_after_place_and_modify
    (e : TradingEngine) (userId : String) (ot : OrderType) (symbol : String)
    (qty : Int) (price : ℚ) (oid orderId : String) (now tid : Nat)
    (newQty : Int) (newPrice : ℚ) :
    (∀ o e' evs,
      e.placeOrder userId ot symbol qty price oid now tid = (some o, e', evs) →
      ∀ bk, booksFind e'.orderBooks symbol = some bk →
        bk.buyOrders ≠ [] → bk.sellOrders ≠ [] → bk.getBestBid < bk.getBestAsk) ∧
    (∀ e' evs ord,
      e.modifyOrder userId orderId newQty newPrice tid now = (true, e', evs) →
      lookupFind e.allOrders orderId = some ord →
      ∀ bk, booksFind e'.orderBooks ord.symbol = some bk →
        bk.buyOrders ≠ [] → bk.sellOrders ≠ [] → bk.getBestBid < bk.getBestAsk) := by
  constructor
  · intro o e' evs hp bk hbk hne1 hne2
    obtain ⟨book1, hfind, _⟩ :=
      placeOrder_success_shape e userId ot symbol qty price oid now tid o e' evs hp
    rw [hfind] at hbk
    injection hbk with hbk
    subst hbk
    exact matchOrders_noCross book1 tid now hne1 hne2
  · intro e' evs ord hm hord bk hbk hne1 hne2
    obtain ⟨book1, hfind, _⟩ :=
      modifyOrder_success_shape e userId orderId newQty newPrice tid now e' evs ord hm hord
    rw [hfind] at hbk
    injection hbk with hbk
    subst hbk
    exact matchOrders_noCross book1 tid now hne1 hne2

/-- Witness for C4 (amended): the placement of a sell 5@100 against a
resting bid 5@90 leaves both sides non-empty and uncrossed. -/
theorem engine_noCross_after_place_and_modify_witness :
    bkW4.getBestBid < bkW4.getBestAsk :=
  (engine_noCross_after_place_and_modify engW4 "U1" OrderType.sell "S" 5 100
      "A1" "" 2 10 0 0).1
    ordW4 placeW4.2.1 placeW4.2.2 (by decide) bkW4 (by decide) (by decide) (by decide)

/-- Claim C4 counterexample: from a fresh engine — place bid 10@100, place
bid 10@(100 + 2⁻³¹), place ask 10@(100 + 2⁻³²) (no trade; the book is
uncrossed since the best bid is the ε-tied *earlier* bid at 100), then
cancel the bid at 100.  The surviving bid at 100 + 2⁻³¹ now sits above the
ask at 100 + 2⁻³²: both sides are non-empty and
`bestBid() < bestAsk()` fails after an engine operation. -/
theorem engine_residual_cross_after_cancel :
    booksFind engC4.orderBooks "S" = some bkC4 ∧
    bkC4.buyOrders.length = 1 ∧
    bkC4.sellOrders.length = 1 ∧
    bkC4.getBestAsk < bkC4.getBestBid ∧
    ¬ bkC4.getBestBid < bkC4.getBestAsk := by decide

theorem Order.fill_status_cases (o : Order) (q : Int) :
    (o.fill q).status = o.status ∨
    (o.fill q).status = OrderStatus.partiallyFilled ∨
    ((o.fill q).status = OrderStatus.filled ∧ (o.fill q).getRemainingQuantity = 0) := by
  unfold Order.fill
  split
  case isTrue h =>
    by_cases h1 : o.filledQuantity + q = o.quantity
    · refine Or.inr (Or.inr ⟨?_, ?_⟩)
      · dsimp only
        rw [if_pos h1]
      · unfold Order.getRemainingQuantity
        dsimp only
        omega
    · by_cases h2 : o.filledQuantity + q > 0
      · refine Or.inr (Or.inl ?_)
        dsimp only
        rw [if_neg h1, if_pos h2]
      · refine Or.inl ?_
        dsimp only
        rw [if_neg h1, if_neg h2]
  case isFalse h => exact Or.inl rfl

theorem lookupFind_mem (l : List (String × Order)) (id : String) (v : Order)
    (h : lookupFind l id = some v) : ∃ p, p ∈ l ∧ p.1 = id ∧ p.2 = v := by
  unfold lookupFind at h
  rcases hf : l.find? (fun p => p.1 == id) with _ | p
  · rw [hf] at h
    exact absurd h (by dsimp only [Option.map]; simp)
  · rw [hf] at h
    dsimp only [Option.map] at h
    injection h with h
    exact ⟨p, List.mem_of_find?_eq_some hf, by simpa using List.find?_some hf, h⟩

/-- The matching loop preserves the book invariant: surviving heads become
PARTIALLY_FILLED (or keep their live status), fully filled heads leave the
queue, and the id-map keys never change. -/
theorem matchLoop_BookInv : ∀ (fuel tid now : Nat) (b : OrderBook),
    BookInv b → BookInv (OrderBook.matchLoop fuel tid now b).2 := by
  intro fuel
  induction fuel with
  | zero => intro tid now b hinv; exact hinv
  | succ f ih =>
    intro tid now b hinv
    cases hb : b.buyOrders with
    | nil =>
      rw [matchLoop_of_buy_nil _ _ _ _ hb]
      exact hinv
    | cons bb rb =>
      cases hs : b.sellOrders with
      | nil =>
        rw [matchLoop_of_sell_nil _ _ _ _ hs]
        exact hinv
      | cons bs rs =>
        by_cases hlt : bb.price < bs.price
        · rw [matchLoop_of_cross _ _ _ _ _ _ _ _ hb hs hlt]
          exact hinv
        · rw [matchLoop_succ_step _ _ _ _ _ _ _ _ hb hs hlt]
          apply ih
          have hbbmem : bb ∈ b.buyOrders := by rw [hb]; exact List.mem_cons_self _ _
          have hbsmem : bs ∈ b.sellOrders := by rw [hs]; exact List.mem_cons_self _ _
          have hbbst := hinv.1 bb (Or.inl hbbmem)
          have hbsst := hinv.1 bs (Or.inr hbsmem)
          have hkeys : lookupKeys
              (lookupSet (lookupSet b.orderLookup bb.orderId
                  (bb.fill (min bb.getRemainingQuantity bs.getRemainingQuantity)))
                bs.orderId
                (bs.fill (min bb.getRemainingQuantity bs.getRemainingQuantity)))
              = lookupKeys b.orderLookup := by
            rw [lookupKeys_lookupSet_of_mem _ _ _
                (mem_lookupKeys_lookupSet _ _ _ _ hbsst.2),
              lookupKeys_lookupSet_of_mem _ _ _ hbbst.2]
          constructor
          · intro o ho
            dsimp only at ho
            rw [show (lookupKeys
                (lookupSet (lookupSet b.orderLookup bb.orderId
                    (bb.fill (min bb.getRemainingQuantity bs.getRemainingQuantity)))
                  bs.orderId
                  (bs.fill (min bb.getRemainingQuantity bs.getRemainingQuantity))))
                = lookupKeys b.orderLookup from hkeys]
            rcases ho with ho | ho
            · split at ho
              next hc =>
                have : o ∈ b.buyOrders := by rw [hb]; exact List.mem_cons_of_mem _ ho
                exact hinv.1 o (Or.inl this)
              next hc =>
                rcases List.mem_cons.mp ho with h | h
                · subst h
                  constructor
                  · rcases Order.fill_status_cases bb
                        (min bb.getRemainingQuantity bs.getRemainingQuantity) with
                      h' | h' | h'
                    · rw [h']
                      exact hbbst.1
                    · exact Or.inr h'
                    · exact absurd h'.2 hc
                  · rw [Order.fill_orderId]
                    exact hbbst.2
                · have : o ∈ b.buyOrders := by rw [hb]; exact List.mem_cons_of_mem _ h
                  exact hinv.1 o (Or.inl this)
            · split at ho
              next hc =>
                have : o ∈ b.sellOrders := by rw [hs]; exact List.mem_cons_of_mem _ ho
                exact hinv.1 o (Or.inr this)
              next hc =>
                rcases List.mem_cons.mp ho with h | h
                · subst h
                  constructor
                  · rcases Order.fill_status_cases bs
                        (min bb.getRemainingQuantity bs.getRemainingQuantity) with
                      h' | h' | h'
                    · rw [h']
                      exact hbsst.1
                    · exact Or.inr h'
                    · exact absurd h'.2 hc
                  · rw [Order.fill_orderId]
                    exact hbsst.2
                · have : o ∈ b.sellOrders := by rw [hs]; exact List.mem_cons_of_mem _ h
                  exact hinv.1 o (Or.inr this)
          · intro p hp
            dsimp only at hp
            rcases mem_lookupSet _ _ _ _ hp with h | h
            · rw [h]
              exact Order.fill_orderId _ _
            · rcases mem_lookupSet _ _ _ _ h with h' | h'
              · rw [h']
                exact Order.fill_orderId _ _
              · exact hinv.2 p h'

theorem addOrder_BookInv (b b' : OrderBook) (ord : Order)
    (h : b.addOrder ord = some b') (hinv : BookInv b) : BookInv b' := by
  unfold OrderBook.addOrder at h
  split_ifs at h with h1 h2
  dsimp only at h
  by_cases h3 : (ord.setStatus OrderStatus.accepted).2.orderType = OrderType.buy
  · -- buy side
    rw [if_pos h3] at h
    injection h with h
    subst h
    constructor
    · intro o ho
      dsimp only at ho
      rcases ho with ho | ho
      · rcases mem_insertSorted _ _ _ _ ho with h' | h'
        · subst h'
          exact ⟨Or.inl rfl, self_mem_lookupKeys_lookupSet _ _ _⟩
        · have := hinv.1 o (Or.inl h')
          exact ⟨this.1, mem_lookupKeys_lookupSet _ _ _ _ this.2⟩
      · have := hinv.1 o (Or.inr ho)
        exact ⟨this.1, mem_lookupKeys_lookupSet _ _ _ _ this.2⟩
    · intro p hp
      dsimp only at hp
      rcases mem_lookupSet _ _ _ _ hp with h' | h'
      · rw [h']
      · exact hinv.2 p h'
  · -- sell side
    rw [if_neg h3] at h
    injection h with h
    subst h
    constructor
    · intro o ho
      dsimp only at ho
      rcases ho with ho | ho
      · have := hinv.1 o (Or.inl ho)
        exact ⟨this.1, mem_lookupKeys_lookupSet _ _ _ _ this.2⟩
      · rcases mem_insertSorted _ _ _ _ ho with h' | h'
        · subst h'
          exact ⟨Or.inl rfl, self_mem_lookupKeys_lookupSet _ _ _⟩
        · have := hinv.1 o (Or.inr h')
          exact ⟨this.1, mem_lookupKeys_lookupSet _ _ _ _ this.2⟩
    · intro p hp
      dsimp only at hp
      rcases mem_lookupSet _ _ _ _ hp with h' | h'
      · rw [h']
      · exact hinv.2 p h'

theorem cancelOrder_BookInv (b b' : OrderBook) (orderId : String)
    (h : b.cancelOrder orderId = some b') (hinv : BookInv b) : BookInv b' := by
  unfold OrderBook.cancelOrder at h
  rcases hfind : lookupFind b.orderLookup orderId with _ | ord
  · rw [hfind] at h
    exact absurd h (by simp)
  · rw [hfind] at h
    dsimp only at h
    obtain ⟨p, hpmem, hpkey, hpval⟩ := lookupFind_mem _ _ _ hfind
    have hordid : ord.orderId = orderId := by
      rw [← hpval, hinv.2 p hpmem, hpkey]
    split_ifs at h with h1 h2
    · rcases he : eraseFirstById orderId b.buyOrders with ⟨removed, rest⟩
      rw [he] at h
      cases removed
      · exact absurd h (by simp)
      · injection h with h
        subst h
        constructor
        · intro o ho
          dsimp only at ho
          have ho' : o ∈ b.buyOrders ∨ o ∈ b.sellOrders := by
            rcases ho with ho | ho
            · exact Or.inl (mem_eraseFirstById _ _ _ (by rw [he]; exact ho))
            · exact Or.inr ho
          have := hinv.1 o ho'
          exact ⟨this.1, mem_lookupKeys_lookupSet _ _ _ _ this.2⟩
        · intro p' hp'
          dsimp only at hp'
          rcases mem_lookupSet _ _ _ _ hp' with h' | h'
          · rw [h']
            exact hordid
          · exact hinv.2 p' h'
    · rcases he : eraseFirstById orderId b.sellOrders with ⟨removed, rest⟩
      rw [he] at h
      cases removed
      · exact absurd h (by simp)
      · injection h with h
        subst h
        constructor
        · intro o ho
          dsimp only at ho
          have ho' : o ∈ b.buyOrders ∨ o ∈ b.sellOrders := by
            rcases ho with ho | ho
            · exact Or.inl ho
            · exact Or.inr (mem_eraseFirstById _ _ _ (by rw [he]; exact ho))
          have := hinv.1 o ho'
          exact ⟨this.1, mem_lookupKeys_lookupSet _ _ _ _ this.2⟩
        · intro p' hp'
          dsimp only at hp'
          rcases mem_lookupSet _ _ _ _ hp' with h' | h'
          · rw [h']
            exact hordid
          · exact hinv.2 p' h'

theorem Order.setQuantity_orderId (o : Order) (q : Int) :
    (o.setQuantity q).2.orderId = o.orderId := by
  unfold Order.setQuantity
  split_ifs <;> rfl

theorem Order.setPrice_orderId (o : Order) (p : ℚ) :
    (o.setPrice p).2.orderId = o.orderId := by
  unfold Order.setPrice
  cases o.kind <;> dsimp only
  split_ifs <;> rfl

theorem modifyOrder_BookInv (b b' : OrderBook) (orderId : String) (q : Int)
    (p : ℚ) (h : b.modifyOrder orderId q p = some b') (hinv : BookInv b) :
    BookInv b' := by
  unfold OrderBook.modifyOrder at h
  rcases hfind : lookupFind b.orderLookup orderId with _ | existing
  · rw [hfind] at h
    exact absurd h (by simp)
  · rw [hfind] at h
    dsimp only at h
    obtain ⟨pe, hpmem, hpkey, hpval⟩ := lookupFind_mem _ _ _ hfind
    have hexid : existing.orderId = orderId := by
      rw [← hpval, hinv.2 pe hpmem, hpkey]
    by_cases h1 : existing.canModify = true
    case neg => rw [if_neg h1] at h; exact absurd h (by simp)
    rw [if_pos h1] at h
    rcases hq : existing.setQuantity q with ⟨ok1, m1⟩
    rw [hq] at h
    dsimp only at h
    by_cases h2 : ok1 = true
    case neg => rw [if_neg h2] at h; exact absurd h (by simp)
    rw [if_pos h2] at h
    rcases hp2 : m1.setPrice p with ⟨ok2, m2⟩
    rw [hp2] at h
    dsimp only at h
    by_cases h3 : ok2 = true
    case neg => rw [if_neg h3] at h; exact absurd h (by simp)
    rw [if_pos h3] at h
    rw [if_pos h1] at h
    have hm2id : m2.orderId = orderId := by
      have e1 : m1.orderId = existing.orderId := by
        rw [show m1 = (existing.setQuantity q).2 from by rw [hq]]
        exact Order.setQuantity_orderId existing q
      have e2 : m2.orderId = m1.orderId := by
        rw [show m2 = (m1.setPrice p).2 from by rw [hp2]]
        exact Order.setPrice_orderId m1 p
      rw [e2, e1, hexid]
    by_cases ht : existing.orderType = OrderType.buy
    · rw [if_pos ht] at h
      dsimp only at h
      by_cases h5 : (eraseFirstById orderId b.buyOrders).1 = true
      case neg => rw [if_neg h5] at h; exact absurd h (by simp)
      rw [if_pos h5] at h
      injection h with h
      subst h
      constructor
      · intro o ho
        dsimp only at ho
        have hmemo : o = (m2.setStatus OrderStatus.accepted).2 ∨
            (o ∈ b.buyOrders ∨ o ∈ b.sellOrders) := by
          rcases ho with ho | ho
          · split at ho
            · rcases mem_insertSorted _ _ _ _ ho with h' | h'
              · exact Or.inl h'
              · exact Or.inr (Or.inl (mem_eraseFirstById _ _ _ h'))
            · exact Or.inr (Or.inl (mem_eraseFirstById _ _ _ ho))
          · split at ho
            · exact Or.inr (Or.inr ho)
            · rcases mem_insertSorted _ _ _ _ ho with h' | h'
              · exact Or.inl h'
              · exact Or.inr (Or.inr h')
        rcases hmemo with h' | h'
        · subst h'
          refine ⟨Or.inl rfl, ?_⟩
          have : (m2.setStatus OrderStatus.accepted).2.orderId = orderId := hm2id
          rw [this]
          exact self_mem_lookupKeys_lookupSet _ _ _
        · have := hinv.1 o h'
          exact ⟨this.1, mem_lookupKeys_lookupSet _ _ _ _ this.2⟩
      · intro p' hp'
        dsimp only at hp'
        rcases mem_lookupSet _ _ _ _ hp' with h' | h'
        · rw [h']
          exact hm2id
        · exact hinv.2 p' h'
    · rw [if_neg ht] at h
      dsimp only at h
      by_cases h5 : (eraseFirstById orderId b.sellOrders).1 = true
      case neg => rw [if_neg h5] at h; exact absurd h (by simp)
      rw [if_pos h5] at h
      injection h with h
      subst h
      constructor
      · intro o ho
        dsimp only at ho
        have hmemo : o = (m2.setStatus OrderStatus.accepted).2 ∨
            (o ∈ b.buyOrders ∨ o ∈ b.sellOrders) := by
          rcases ho with ho | ho
          · split at ho
            · rcases mem_insertSorted _ _ _ _ ho with h' | h'
              · exact Or.inl h'
              · exact Or.inr (Or.inl h')
            · exact Or.inr (Or.inl ho)
          · split at ho
            · exact Or.inr (Or.inr (mem_eraseFirstById _ _ _ ho))
            · rcases mem_insertSorted _ _ _ _ ho with h' | h'
              · exact Or.inl h'
              · exact Or.inr (Or.inr (mem_eraseFirstById _ _ _ h'))
        rcases hmemo with h' | h'
        · subst h'
          refine ⟨Or.inl rfl, ?_⟩
          have : (m2.setStatus OrderStatus.accepted).2.orderId = orderId := hm2id
          rw [this]
          exact self_mem_lookupKeys_lookupSet _ _ _
        · have := hinv.1 o h'
          exact ⟨this.1, mem_lookupKeys_lookupSet _ _ _ _ this.2⟩
      · intro p' hp'
        dsimp only at hp'
        rcases mem_lookupSet _ _ _ _ hp' with h' | h'
        · rw [h']
          exact hm2id
        · exact hinv.2 p' h'

theorem reachable_BookInv (b : OrderBook) (h : ReachableBook b) : BookInv b := by
  induction h with
  | init symbol =>
    constructor
    · intro o ho
      rcases ho with ho | ho <;> simp [OrderBook.init] at ho
    · intro p hp
      simp [OrderBook.init] at hp
  | add _ hadd ih => exact addOrder_BookInv _ _ _ hadd ih
  | cancel _ hc ih => exact cancelOrder_BookInv _ _ _ hc ih
  | modify _ hm ih => exact modifyOrder_BookInv _ _ _ _ _ hm ih
  | matched tid now _ ih => exact matchLoop_BookInv _ _ _ _ ih

/-- The matching loop never removes an id-map entry: the key set of
`orderLookup_` is unchanged (provided every queued order has an entry, as
every reachable book does). -/
theorem matchLoop_lookupKeys : ∀ (fuel tid now : Nat) (b : OrderBook),
    (∀ o : Order, o ∈ b.buyOrders ∨ o ∈ b.sellOrders →
      o.orderId ∈ lookupKeys b.orderLookup) →
    lookupKeys (OrderBook.matchLoop fuel tid now b).2.orderLookup =
      lookupKeys b.orderLookup := by
  intro fuel
  induction fuel with
  | zero => intro tid now b _; rfl
  | succ f ih =>
    intro tid now b hids
    cases hb : b.buyOrders with
    | nil => rw [matchLoop_of_buy_nil _ _ _ _ hb]
    | cons bb rb =>
      cases hs : b.sellOrders with
      | nil => rw [matchLoop_of_sell_nil _ _ _ _ hs]
      | cons bs rs =>
        by_cases hlt : bb.price < bs.price
        · rw [matchLoop_of_cross _ _ _ _ _ _ _ _ hb hs hlt]
        · rw [matchLoop_succ_step _ _ _ _ _ _ _ _ hb hs hlt]
          have hk1 : bb.orderId ∈ lookupKeys b.orderLookup :=
            hids bb (Or.inl (by rw [hb]; exact List.mem_cons_self _ _))
          have hk2 : bs.orderId ∈ lookupKeys b.orderLookup :=
            hids bs (Or.inr (by rw [hs]; exact List.mem_cons_self _ _))
          have hkeys : lookupKeys
              (lookupSet (lookupSet b.orderLookup bb.orderId
                  (bb.fill (min bb.getRemainingQuantity bs.getRemainingQuantity)))
                bs.orderId
                (bs.fill (min bb.getRemainingQuantity bs.getRemainingQuantity)))
              = lookupKeys b.orderLookup := by
            rw [lookupKeys_lookupSet_of_mem _ _ _
                (mem_lookupKeys_lookupSet _ _ _ _ hk2),
              lookupKeys_lookupSet_of_mem _ _ _ hk1]
          dsimp only
          refine (ih (tid + 1) now _ ?_).trans hkeys
          intro o ho
          dsimp only at ho ⊢
          rw [hkeys]
          rcases ho with ho | ho
          · split at ho
            next hc =>
              exact hids o (Or.inl (by rw [hb]; exact List.mem_cons_of_mem _ ho))
            next hc =>
              rcases List.mem_cons.mp ho with h' | h'
              · subst h'
                rw [Order.fill_orderId]
                exact hk1
              · exact hids o (Or.inl (by rw [hb]; exact List.mem_cons_of_mem _ h'))
          · split at ho
            next hc =>
              exact hids o (Or.inr (by rw [hs]; exact List.mem_cons_of_mem _ ho))
            next hc =>
              rcases List.mem_cons.mp ho with h' | h'
              · subst h'
                rw [Order.fill_orderId]
                exact hk2
              · exact hids o (Or.inr (by rw [hs]; exact List.mem_cons_of_mem _ h'))

/-- Claim C5 (amended): in every reachable book the id-map holds an entry
for every queued order, every map entry is keyed by its order's id, and no
terminal-status order is in either queue (`BookInv`); a successful
`removeById` erases the order from its side queue (the queues shrink by
one) and sets its status to CANCELLED, but its id-map entry remains (now
with status CANCELLED); and `match()` never removes id-map entries — the
id-map is a superset of the queues, not in one-to-one correspondence. -/
theorem book_idMap_superset (b b' : OrderBook) (orderId : String)
    (tid now : Nat) :
    (ReachableBook b → BookInv b) ∧
    (b.cancelOrder orderId = some b' →
      lookupKeys b'.orderLookup = lookupKeys b.orderLookup ∧
      ∃ ord : Order, b.getOrder orderId = some ord ∧ ord.canCancel = true ∧
        b'.getOrder orderId = some (ord.setStatus OrderStatus.cancelled).2 ∧
        b'.buyOrders.length + b'.sellOrders.length + 1 =
          b.buyOrders.length + b.sellOrders.length) ∧
    ((∀ o ∈ b.buyOrders, o.orderId ∈ lookupKeys b.orderLookup) →
     (∀ o ∈ b.sellOrders, o.orderId ∈ lookupKeys b.orderLookup) →
      lookupKeys ((b.matchOrders tid now).2).orderLookup =
        lookupKeys b.orderLookup) := by
  refine ⟨reachable_BookInv b, ?_, ?_⟩
  · intro hc
    unfold OrderBook.cancelOrder at hc
    rcases hfind : lookupFind b.orderLookup orderId with _ | ord
    · rw [hfind] at hc
      exact absurd hc (by simp)
    · rw [hfind] at hc
      dsimp only at hc
      have hkmem : orderId ∈ lookupKeys b.orderLookup := by
        obtain ⟨p, hpmem, hpkey, _⟩ := lookupFind_mem _ _ _ hfind
        exact hpkey ▸ List.mem_map_of_mem _ hpmem
      by_cases h1 : ord.canCancel = true
      case neg => rw [if_neg h1] at hc; exact absurd hc (by simp)
      rw [if_pos h1] at hc
      by_cases ht : ord.orderType = OrderType.buy
      · rw [if_pos ht] at hc
        rcases he : eraseFirstById orderId b.buyOrders with ⟨removed, rest⟩
        rw [he] at hc
        cases removed
        · exact absurd hc (by simp)
        · injection hc with hc
          subst hc
          have hlen := eraseFirstById_true_length orderId b.buyOrders (by rw [he])
          rw [he] at hlen
          refine ⟨?_, ord, hfind, h1, ?_, ?_⟩
          · exact lookupKeys_lookupSet_of_mem _ _ _ hkmem
          · unfold OrderBook.getOrder
            dsimp only
            exact lookupFind_lookupSet_self _ _ _
          · dsimp only at hlen ⊢
            omega
      · rw [if_neg ht] at hc
        rcases he : eraseFirstById orderId b.sellOrders with ⟨removed, rest⟩
        rw [he] at hc
        cases removed
        · exact absurd hc (by simp)
        · injection hc with hc
          subst hc
          have hlen := eraseFirstById_true_length orderId b.sellOrders (by rw [he])
          rw [he] at hlen
          refine ⟨?_, ord, hfind, h1, ?_, ?_⟩
          · exact lookupKeys_lookupSet_of_mem _ _ _ hkmem
          · unfold OrderBook.getOrder
            dsimp only
            exact lookupFind_lookupSet_self _ _ _
          · dsimp only at hlen ⊢
            omega
  · intro hb hs
    unfold OrderBook.matchOrders
    exact matchLoop_lookupKeys _ tid now b (fun o ho => ho.elim (hb o) (hs o))

/-- Witness for C5 (amended): the one-order book `bkC5` is reachable and
satisfies the invariant, and cancelling its order keeps the id-map key. -/
theorem book_idMap_superset_witness :
    BookInv bkC5 ∧
    lookupKeys bkC5c.orderLookup = lookupKeys bkC5.orderLookup := by
  have h := book_idMap_superset bkC5 bkC5c "B1" 0 0
  exact ⟨h.1 (@ReachableBook.add (OrderBook.init "S") bkC5
      (mkLimitOrder "B1" "U1" OrderType.buy "S" 7 3200 1)
      (ReachableBook.init "S") (by decide)),
    (h.2.1 (by decide)).1⟩

/-- Claim C5 counterexample: after a successful cancel the order is gone
from the queues but its id-map entry remains, with terminal status
CANCELLED — the id-map is not in one-to-one correspondence with the
queues, and `removeById` does not remove the order from the id-map. -/
theorem cancel_keeps_idMap_entry_counterexample :
    bkC5.cancelOrder "B1" = some bkC5c ∧
    bkC5c.buyOrders = [] ∧ bkC5c.sellOrders = [] ∧
    (bkC5c.getOrder "B1").map Order.status = some OrderStatus.cancelled := by
  decide

end TradingSystem
